import Mathlib

/-
Verification of the entity-simulation core of the Gpq 3D arena shooter.

Shallow embedding notes, applying to the whole file:
* JS numbers are modelled as rationals (ℚ); integer-valued counters as ℤ or ℕ.
* `Infinity` / non-finite sentinel values are modelled as `Option ℚ` with
  `none` standing for the non-finite case, at the places where the source
  stores `Infinity` (weapon ammo, the shooter timers of non-shooting enemies).
* `Math.random()` draws are passed in explicitly as oracle arguments
  (a rational in [0,1), or a stream of them), since the model is pure.
* THREE.js meshes: each entity constructs and owns exactly one mesh, so
  membership of an entity's mesh in the scene graph is modelled as a
  per-entity boolean flag (`inScene`), and `mesh.visible` as `visible`.
* The chase-movement geometry (quaternion slerp plus a forward step) is
  irrational; the position an enemy chasing the player moves to is supplied
  as an oracle argument (`chase`), since no claim depends on its value.
-/

/-- A 3D vector of rationals (stands for THREE.Vector3). -/
abbrev V3 : Type := ℚ × ℚ × ℚ

/-- THREE.Vector3.distanceToSquared: squared Euclidean distance. -/
def distanceToSquared (a b : V3) : ℚ :=
  (a.1 - b.1) * (a.1 - b.1) + (a.2.1 - b.2.1) * (a.2.1 - b.2.1)
    + (a.2.2 - b.2.2) * (a.2.2 - b.2.2)

/-- The JS idiom `v || d` on a possibly-undefined number: `undefined`, `0`
and `NaN` are falsy, so the default is used for `none` and for `0`. -/
def jsOrQ (v : Option ℚ) (d : ℚ) : ℚ :=
  match v with
  | some x => if x = 0 then d else x
  | none => d

/-- The JS idiom `b || false` on a possibly-undefined boolean. -/
def jsOrB (v : Option Bool) : Bool :=
  match v with
  | some b => b
  | none => false

/-- The JS idiom `v ?? d` (nullish coalescing): only `undefined`/`null`
fall through to the default; `0` does not. -/
def jsNullish (v : Option ℚ) (d : ℚ) : ℚ :=
  match v with
  | some x => x
  | none => d

/-- A timer that may hold `Infinity`/`NaN` (modelled `none`): `t <= 0` is
false for both non-finite values in JS. -/
def timerLEZero (t : Option ℚ) : Bool :=
  match t with
  | some x => x ≤ 0
  | none => false

/-- Decrement of a possibly non-finite timer: `Infinity - dt` is `Infinity`
and `NaN - dt` is `NaN`, so `none` is fixed. -/
def timerSub (t : Option ℚ) (dt : ℚ) : Option ℚ :=
  match t with
  | some x => some (x - dt)
  | none => none

namespace Enemy

/-- The enemy FSM states (Enemy.js, `EnemyState`). `FLEEING` is declared in
the source enum but has no behaviour attached. -/
inductive EState where
  | idle
  | chasing
  | attacking
  | fleeing
  | dying
  | inactive
deriving DecidableEq, Repr

/-- The mutable fields of an Enemy instance that the simulation logic
reads or writes (Enemy.js).  Animation/mixer state, mesh colour and the
bounding box are omitted: no modelled code path branches on them. -/
structure EnemyS where
  etype : String
  health : ℚ
  speed : ℚ
  scoreVal : ℚ
  collisionDamage : ℚ
  dropChance : ℚ
  canShoot : Bool
  /-- `shootingInterval`: `Infinity` for non-shooters (`config.shootingInterval || Infinity`). -/
  shootingInterval : Option ℚ
  shootDistance : ℚ
  chaseDistance : ℚ
  currentState : EState
  stateTimer : ℚ
  /-- the `_destroyed` flag of the source. -/
  destroyed : Bool
  isInvincible : Bool
  invincibilityTimer : ℚ
  /-- `shootTimer` starts as `Math.random() * shootingInterval`, which is
  non-finite (`none`) for non-shooters. -/
  shootTimer : Option ℚ
  position : V3
  velocity : V3
deriving DecidableEq, Repr

/-- `this.invincibilityDuration = 300` ms, set once in the constructor and
never reassigned. -/
def invincibilityDuration : ℚ := 300

/-- Enemy.setState (Enemy.js): early-returns when the state is unchanged,
otherwise switches state, zeroes the state timer, and runs the entry
action of the new state.  `rand` feeds the `Math.random()` draw of the
IDLE entry action (the only entry action that draws one); `playAnimation`
and the mixer are not modelled. -/
def setState (rand : ℚ) (newState : EState) (e : EnemyS) : EnemyS :=
  if newState = e.currentState then e
  else
    let e2 : EnemyS := { e with currentState := newState, stateTimer := 0 }
    match newState with
    | EState.idle =>
        { e2 with velocity := (0, 0, 0), stateTimer := 1 + rand * 2 }
    | EState.chasing => e2
    | EState.attacking =>
        let e3 : EnemyS := { e2 with velocity := (0, 0, 0) }
        if e3.canShoot then
          -- `this.shootTimer = Math.min(this.shootTimer, 0.5)`; for a
          -- shooter the timer is always finite, so the `none` branch
          -- (unreachable) keeps the non-finite value.
          { e3 with shootTimer :=
              match e3.shootTimer with
              | some x => some (min x (1/2))
              | none => none }
        else e3
    | EState.dying =>
        { e2 with velocity := (0, 0, 0), stateTimer := 3/2 }
    | EState.inactive =>
        { e2 with velocity := (0, 0, 0) }
    | EState.fleeing => e2

/-- Enemy.destroy (Enemy.js): idempotent guard on `_destroyed`, then marks
destroyed and forces the INACTIVE state.  The INACTIVE entry action draws
no random number, so the oracle argument of `setState` is irrelevant and
`0` is passed. -/
def destroy (e : EnemyS) : EnemyS :=
  if e.destroyed then e
  else setState 0 EState.inactive { e with destroyed := true }

/-- Enemy.applyInvincibility (Enemy.js). -/
def applyInvincibility (duration : ℚ) (e : EnemyS) : EnemyS :=
  { e with isInvincible := true, invincibilityTimer := duration }

/-- Enemy.takeDamage (Enemy.js): no-op returning 0 when invincible,
destroyed, Dying or Inactive; otherwise clamps health at 0, grants the
300 ms invincibility window, enters Dying when health reaches 0, and
returns the `amount` argument.  The DYING entry action draws no random
number, so `0` is passed as the `setState` oracle. -/
def takeDamage (amount : ℚ) (e : EnemyS) : ℚ × EnemyS :=
  if e.isInvincible ∨ e.destroyed ∨ e.currentState = EState.dying
      ∨ e.currentState = EState.inactive then
    (0, e)
  else
    let e2 : EnemyS := { e with health := max 0 (e.health - amount) }
    let e3 : EnemyS := applyInvincibility invincibilityDuration e2
    let e4 : EnemyS := if e3.health ≤ 0 then setState 0 EState.dying e3 else e3
    (amount, e4)

/-- Enemy.updateTimers (Enemy.js): ticks the invincibility window down by
`dt * 1000` ms and clears the flag when it reaches 0. -/
def updateTimers (dt : ℚ) (e : EnemyS) : EnemyS :=
  if e.isInvincible then
    let t : ℚ := e.invincibilityTimer - dt * 1000
    if t ≤ 0 then { e with invincibilityTimer := t, isInvincible := false }
    else { e with invincibilityTimer := t }
  else e

/-- The view of the player that Enemy.updateFSM reads: `engine.player`
with its `_destroyed` flag and mesh position. -/
structure PlayerView where
  position : V3
  destroyed : Bool
deriving DecidableEq, Repr

/-- The no-player branch of Enemy.updateFSM (Enemy.js): a Chasing or
Attacking (or Fleeing) enemy degrades to Idle, then Idle/Dying/Inactive
tick their timer, Dying completing its death sequence; the function then
returns without running the distance logic. -/
def updateFSMNoPlayer (rand : ℚ) (dt : ℚ) (e : EnemyS) : EnemyS :=
  let e2 : EnemyS :=
    if e.currentState ≠ EState.idle ∧ e.currentState ≠ EState.dying
        ∧ e.currentState ≠ EState.inactive then
      setState rand EState.idle e
    else e
  let e3 : EnemyS := { e2 with stateTimer := e2.stateTimer - dt }
  if e3.currentState = EState.dying ∧ e3.stateTimer ≤ 0 then destroy e3 else e3

/-- Enemy.updateFSM (Enemy.js).  `rand` feeds the (at most one)
`Math.random()` draw on the executed path; `chase` is the oracle for the
position produced by the Chasing movement (slerp facing plus a
`speed * dt` forward step, irrational geometry).  The `shoot()` call of
the Attacking state spawns a bullet through the engine; its enemy-local
effect is the timer reset modelled here. -/
def updateFSM (rand : ℚ) (chase : V3) (dt : ℚ) (player : Option PlayerView)
    (e : EnemyS) : EnemyS :=
  match player with
  | none => updateFSMNoPlayer rand dt e
  | some p =>
    if p.destroyed then updateFSMNoPlayer rand dt e
    else
      let e2 : EnemyS := { e with stateTimer := e.stateTimer - dt }
      let dSq : ℚ := distanceToSquared e2.position p.position
      let e3 : EnemyS :=
        match e2.currentState with
        | EState.idle =>
            if e2.stateTimer ≤ 0 then { e2 with stateTimer := 1 + rand * 2 } else e2
        | EState.chasing => { e2 with position := chase }
        | EState.attacking =>
            if e2.canShoot then
              let t : Option ℚ := timerSub e2.shootTimer dt
              if timerLEZero t then { e2 with shootTimer := e2.shootingInterval }
              else { e2 with shootTimer := t }
            else e2
        | EState.dying => if e2.stateTimer ≤ 0 then destroy e2 else e2
        | EState.fleeing => e2
        | EState.inactive => e2
      if e3.currentState ≠ EState.dying ∧ e3.currentState ≠ EState.inactive then
        let canAttack : Bool := dSq ≤ e3.shootDistance * e3.shootDistance
        let canChase : Bool := dSq ≤ e3.chaseDistance * e3.chaseDistance
        match e3.currentState with
        | EState.idle => if canChase then setState rand EState.chasing e3 else e3
        | EState.chasing =>
            if canAttack then setState rand EState.attacking e3
            else if ¬ canChase then setState rand EState.idle e3
            else e3
        | EState.attacking =>
            if ¬ canAttack then setState rand EState.chasing e3 else e3
        | _ => e3
      else e3

end Enemy

namespace Player

/-- The mutable fields of the Player (WeaponManager.js, `class Player`)
that the health/damage logic reads or writes.  Movement, orientation,
animation and the power-up timeout map are omitted: `takeDamage`, `heal`
and `die` do not read them. -/
structure PlayerS where
  health : ℚ
  maxHealth : ℚ
  isInvincible : Bool
  isShielded : Bool
  /-- the `_destroyed` flag of the source. -/
  destroyed : Bool
  invincibilityTimer : ℚ
deriving DecidableEq, Repr

/-- `this.invincibilityDuration = 1000` ms, set once in the constructor. -/
def invincibilityDuration : ℚ := 1000

/-- Player.die: idempotent guard, marks destroyed, notifies the engine
(`engine.endGame()`, an engine-side effect not part of the player state). -/
def die (p : PlayerS) : PlayerS :=
  if p.destroyed then p else { p with destroyed := true }

/-- Player.takeDamage: no-op returning 0 when invincible, shielded or
destroyed; otherwise clamps health at 0 from below, grants the 1000 ms
invincibility window, dies at 0 health, and returns the amount. -/
def takeDamage (amount : ℚ) (p : PlayerS) : ℚ × PlayerS :=
  if p.isInvincible ∨ p.isShielded ∨ p.destroyed then (0, p)
  else
    let p2 : PlayerS := { p with health := max 0 (p.health - amount) }
    let p3 : PlayerS :=
      { p2 with isInvincible := true, invincibilityTimer := invincibilityDuration }
    let p4 : PlayerS := if p3.health ≤ 0 then die p3 else p3
    (amount, p4)

/-- Player.heal: no-op when destroyed; otherwise clamps health at
maxHealth from above. -/
def heal (amount : ℚ) (p : PlayerS) : PlayerS :=
  if p.destroyed then p
  else { p with health := min p.maxHealth (p.health + amount) }

/-- A call in a sequence of player health operations. -/
inductive POp where
  | damage (amount : ℚ)
  | heal (amount : ℚ)
deriving DecidableEq, Repr

/-- The amount carried by a health operation. -/
def POp.amount : POp → ℚ
  | POp.damage a => a
  | POp.heal a => a

/-- Apply one health operation (the damage return value is discarded). -/
def applyOp (p : PlayerS) (op : POp) : PlayerS :=
  match op with
  | POp.damage a => (takeDamage a p).2
  | POp.heal a => heal a p

/-- Apply a sequence of takeDamage/heal calls in order. -/
def applyOps (ops : List POp) (p : PlayerS) : PlayerS :=
  ops.foldl applyOp p

end Player

namespace Bullet

/-- The mutable fields of a Bullet (Bullets.js) that the lifecycle logic
touches; the mesh is modelled by its `visible` flag. -/
structure BulletS where
  speed : ℚ
  damage : ℚ
  isPlayerBullet : Bool
  lifespanTimer : ℚ
  /-- the `_destroyed` flag of the source. -/
  destroyed : Bool
  visible : Bool
  position : V3
  direction : V3
deriving DecidableEq, Repr

/-- Bullet.destroy (Bullets.js): idempotent guard on `_destroyed`, then
marks destroyed and hides the mesh; scene removal and pool return are the
engine's cleanup job. -/
def destroy (b : BulletS) : BulletS :=
  if b.destroyed then b else { b with destroyed := true, visible := false }

end Bullet

namespace PowerUp

/-- The mutable fields of a PowerUp (InputState.js, `class PowerUp`) that
the lifecycle logic touches; physics body and bob animation details beyond
the timer are omitted. -/
structure PowerUpS where
  ptype : String
  /-- the `_destroyed` flag of the source. -/
  destroyed : Bool
  visible : Bool
  bobTimer : ℚ
deriving DecidableEq, Repr

/-- PowerUp.destroy (InputState.js): idempotent guard on `_destroyed`,
then marks destroyed and hides the mesh. -/
def destroy (p : PowerUpS) : PowerUpS :=
  if p.destroyed then p else { p with destroyed := true, visible := false }

end PowerUp

namespace Weapon

/-- One registry entry of the WeaponManager (WeaponManager.js).  Ammo
counts may be `Infinity`, modelled as `none`. -/
structure WeaponCfg where
  wname : String
  damage : ℚ
  cooldown : ℚ
  range : ℚ
  automatic : Bool
  ammoMax : Option ℤ
  ammoCurrent : Option ℤ
deriving DecidableEq, Repr

/-- The WeaponManager state (WeaponManager.js).  `this.weapons` is a JS
`Map`, iterated in insertion order, modelled as an association list; the
cached `this.currentWeapon` reference is recovered by lookup on
`equippedWeaponId` (equipWeapon keeps the two in sync). -/
structure WM where
  weapons : List (String × WeaponCfg)
  equippedWeaponId : Option String
  fireTimer : ℚ
deriving DecidableEq, Repr

/-- Lookup in the weapon registry (JS `Map.get` / `Map.has`). -/
def wlookup (id : String) : List (String × WeaponCfg) → Option WeaponCfg
  | [] => none
  | (k, w) :: rest => if k = id then some w else wlookup id rest

/-- Replace the entry of `id` (mutation of the object stored in the Map). -/
def wupdate (id : String) (w : WeaponCfg) :
    List (String × WeaponCfg) → List (String × WeaponCfg)
  | [] => []
  | (k, old) :: rest =>
      if k = id then (k, w) :: rest else (k, old) :: wupdate id w rest

/-- `this.currentWeapon`: the equipped weapon's registry entry. -/
def currentWeapon (s : WM) : Option WeaponCfg :=
  match s.equippedWeaponId with
  | none => none
  | some id => wlookup id s.weapons

/-- WeaponManager.equipWeapon: fails when the id is unknown or already
equipped; otherwise records the id and sets `fireTimer = 0`
("Reset cooldown when switching"). -/
def equipWeapon (id : String) (s : WM) : Bool × WM :=
  if (wlookup id s.weapons).isNone ∨ s.equippedWeaponId = some id then (false, s)
  else (true, { s with equippedWeaponId := some id, fireTimer := 0 })

/-- WeaponManager.update: ticks the fire cooldown down while positive. -/
def update (dt : ℚ) (s : WM) : WM :=
  if s.fireTimer > 0 then { s with fireTimer := s.fireTimer - dt } else s

/-- WeaponManager.canFire: false when no weapon is equipped, the cooldown
has not elapsed, or ammo is finite and exhausted. -/
def canFire (s : WM) : Bool :=
  match currentWeapon s with
  | none => false
  | some w =>
    if s.fireTimer > 0 then false
    else
      match w.ammoCurrent with
      | some a => if a ≤ 0 then false else true
      | none => true

/-- `if (ammoCurrent !== Infinity) ammoCurrent--`: decrement finite ammo. -/
def ammoDec : Option ℤ → Option ℤ
  | some a => some (a - 1)
  | none => none

/-- WeaponManager.fire: returns false (changing nothing) unless canFire;
otherwise resets the cooldown to the weapon's `cooldown`, decrements
finite ammo, and requests a projectile spawn through the engine (the
spawn request itself is engine-side and not part of the WM state). -/
def fire (s : WM) : Bool × WM :=
  if ¬ canFire s then (false, s)
  else
    match s.equippedWeaponId, currentWeapon s with
    | some id, some w =>
        let w2 : WeaponCfg := { w with ammoCurrent := ammoDec w.ammoCurrent }
        (true, { s with fireTimer := w.cooldown, weapons := wupdate id w2 s.weapons })
    | _, _ => (false, s)

/-- A sequence of per-frame `update(dt)` calls applied in order. -/
def applyUpdates (dts : List ℚ) (s : WM) : WM :=
  dts.foldl (fun acc d => update d acc) s

/-- JS `Array.indexOf` over the key array, with `indexOf(null) = -1`. -/
def indexOfId (ids : List String) (eq : Option String) : ℤ :=
  match eq with
  | none => -1
  | some id =>
    match ids.findIdx? (fun k => k = id) with
    | some i => (i : ℤ)
    | none => -1

/-- WeaponManager.switchToNextWeapon: no-op with at most one weapon;
otherwise equips the next key in insertion order, wrapping. -/
def switchToNextWeapon (s : WM) : WM :=
  if s.weapons.length ≤ 1 then s
  else
    let ids : List String := s.weapons.map Prod.fst
    let ci : ℤ := indexOfId ids s.equippedWeaponId
    let nextIndex : ℤ := (ci + 1) % (ids.length : ℤ)
    (equipWeapon (ids.getD nextIndex.toNat "") s).2

/-- WeaponManager.switchToPreviousWeapon: no-op with at most one weapon;
otherwise equips the previous key in insertion order, wrapping. -/
def switchToPreviousWeapon (s : WM) : WM :=
  if s.weapons.length ≤ 1 then s
  else
    let ids : List String := s.weapons.map Prod.fst
    let ci : ℤ := indexOfId ids s.equippedWeaponId
    let prevIndex : ℤ := (ci - 1 + (ids.length : ℤ)) % (ids.length : ℤ)
    (equipWeapon (ids.getD prevIndex.toNat "") s).2

/-- The `pistol` entry of `defaultWeapons` (WeaponManager.js). -/
def pistol : WeaponCfg :=
  { wname := "Pistol", damage := 8, cooldown := 3/10, range := 50,
    automatic := false, ammoMax := none, ammoCurrent := none }

/-- The `rifle` entry of `defaultWeapons` (WeaponManager.js). -/
def rifle : WeaponCfg :=
  { wname := "Rifle", damage := 15, cooldown := 1/10, range := 100,
    automatic := true, ammoMax := some 150, ammoCurrent := some 150 }

/-- The WeaponManager state right after `loadDefaultWeapons()`: both
default weapons registered in insertion order and the first equipped. -/
def defaultWM : WM :=
  { weapons := [("pistol", pistol), ("rifle", rifle)],
    equippedWeaponId := some "pistol", fireTimer := 0 }

/-- All finite ammo counts in the registry are non-negative. -/
def ammoNonneg (s : WM) : Prop :=
  ∀ p ∈ s.weapons, ∀ a : ℤ, p.2.ammoCurrent = some a → 0 ≤ a

end Weapon

namespace Director

/-- The game-state constants of UIManager.js (`GameEngine3D`). -/
inductive GState where
  | title
  | loading
  | playing
  | paused
  | gameOver
  | waveTransition
deriving DecidableEq, Repr

/-- The wave/score fields of GameEngine3D that `updateGameState` and
`startNextWave` read or write (UIManager.js). -/
structure DirectorState where
  gameState : GState
  score : ℚ
  currentWave : ℤ
  enemiesToSpawn : ℤ
  enemiesRemainingInWave : ℤ
  enemiesActive : ℤ
  waveCooldownTimer : ℚ
deriving DecidableEq, Repr

/-- `this.waveCooldownDuration = 3000` ms (UIManager.js). -/
def waveCooldownDuration : ℚ := 3000

/-- GameEngine3D.calculateEnemiesForWave: `Math.floor(5 + wave * 1.5)`. -/
def calculateEnemiesForWave (wave : ℤ) : ℤ :=
  Int.floor ((5 : ℚ) + (wave : ℚ) * (3/2))

/-- GameEngine3D.startNextWave (UIManager.js): advances the wave number,
returns to Playing and installs the new spawn quota.  The `setInterval`
spawn timer it starts is asynchronous and spawns enemies on later ticks;
it is outside this per-call model. -/
def startNextWave (s : DirectorState) : DirectorState :=
  let w : ℤ := s.currentWave + 1
  let c : ℤ := calculateEnemiesForWave w
  { s with
    currentWave := w, gameState := GState.playing,
    enemiesToSpawn := c, enemiesRemainingInWave := c, enemiesActive := 0 }

/-- GameEngine3D.updateGameState (UIManager.js): in Playing, enters
WaveTransition with the 3000 ms cooldown when
`enemiesRemainingInWave > 0 && enemiesActive <= 0`; in WaveTransition,
ticks the cooldown by `dt * 1000` ms and starts the next wave when it
reaches 0. -/
def updateGameState (dt : ℚ) (s : DirectorState) : DirectorState :=
  if s.gameState = GState.playing then
    if 0 < s.enemiesRemainingInWave ∧ s.enemiesActive ≤ 0 then
      { s with
        gameState := GState.waveTransition,
        waveCooldownTimer := waveCooldownDuration }
    else s
  else if s.gameState = GState.waveTransition then
    let s2 : DirectorState := { s with waveCooldownTimer := s.waveCooldownTimer - dt * 1000 }
    if s2.waveCooldownTimer ≤ 0 then startNextWave s2 else s2
  else s

end Director

namespace Engine

/-- A fatal JS runtime error (an uncaught TypeError). -/
inductive JsError where
  | typeError (msg : String)
deriving DecidableEq, Repr

/-- An entity as seen by the engine's pooling and cleanup layer
(UIManager.js): duck-typed, the engine touches `_destroyed`, `mesh`,
`score` and `dropChance`.  `eid` is the object's identity; `hasMesh`
models `if (obj.mesh)` truthiness; `inScene` models membership of the
entity's (unique, constructor-owned) mesh in the THREE scene. -/
structure Entity where
  eid : ℕ
  /-- the `_destroyed` flag of the source. -/
  destroyed : Bool
  hasMesh : Bool
  inScene : Bool
  /-- `enemy.score`, read by the cleanup pass. Undefined on non-enemies,
  but the cleanup pass only reads it on enemies. -/
  score : ℚ
  /-- `enemy.dropChance`, read through `?? 0.05` by the cleanup pass. -/
  dropChance : Option ℚ
deriving DecidableEq, Repr

/-- The engine fields of GameEngine3D that pooling, spawning and cleanup
read or write (UIManager.js).  `this.pools` is a plain JS object used as a
dictionary, modelled as an association list; indexing it with a key that
is not a property yields `undefined`.  Each pool array is used only via
`push`/`pop` at its end, so it is stored top-of-stack first. -/
structure EngineS where
  pools : List (String × List Entity)
  activeBullets : List Entity
  activeEnemies : List Entity
  activePowerUps : List Entity
  activeEffects : List Entity
  enemiesActive : ℤ
  score : ℚ
deriving DecidableEq, Repr

/-- JS object property read `this.pools[poolName]`. -/
def plookup (k : String) : List (String × List Entity) → Option (List Entity)
  | [] => none
  | (a, l) :: rest => if a = k then some l else plookup k rest

/-- Overwrite the pool array stored under a key. -/
def pset (k : String) (v : List Entity) :
    List (String × List Entity) → List (String × List Entity)
  | [] => []
  | (a, l) :: rest => if a = k then (a, v) :: rest else (a, l) :: pset k v rest

/-- `this.scene.remove(entity.mesh)` guarded by `if (entity.mesh)`: with
scene membership as a per-entity flag, this clears `inScene` when the
entity has a mesh. -/
def sceneRemove (e : Entity) : Entity :=
  if e.hasMesh then { e with inScene := false } else e

/-- `if (obj.mesh) this.scene.add(obj.mesh)`. -/
def sceneAdd (e : Entity) : Entity :=
  if e.hasMesh then { e with inScene := true } else e

/-- The per-entity effect of a pool release: marked destroyed, mesh out of
the scene (returnObjectToPool). -/
def releasedMark (e : Entity) : Entity :=
  sceneRemove { e with destroyed := true }

/-- The per-entity effect of a pool acquire: `_destroyed` cleared, mesh
re-added to the scene (getObjectFromPool). -/
def acquiredMark (e : Entity) : Entity :=
  sceneAdd { e with destroyed := false }

/-- A release followed by a later acquire of the same instance. -/
def roundTripMark (e : Entity) : Entity :=
  acquiredMark (releasedMark e)

/-- GameEngine3D.getObjectFromPool (UIManager.js).  Reads
`this.pools[poolName]` and immediately evaluates `pool.length`: when the
pool id is not registered this is a property read on `undefined` and the
call throws a TypeError.  A registered non-empty pool pops its most
recently pushed instance, clears its `_destroyed` flag and re-adds its
mesh to the scene.  A registered empty pool falls to the constructor
switch, whose cases are all commented out, so the default branch warns
and returns `null`. -/
def getObjectFromPool (poolName : String) (st : EngineS) :
    Except JsError (Option Entity × EngineS) :=
  match plookup poolName st.pools with
  | none =>
      Except.error (JsError.typeError "Cannot read properties of undefined (reading length)")
  | some pool =>
    match pool with
    | obj :: rest =>
        Except.ok (some (acquiredMark obj),
          { st with pools := pset poolName rest st.pools })
    | [] => Except.ok (none, st)

/-- GameEngine3D.returnObjectToPool (UIManager.js): marks the object
destroyed, removes its mesh from the scene and pushes it onto the pool;
a missing pool name only logs a warning (`if (this.pools[poolName])`). -/
def returnObjectToPool (obj : Entity) (poolName : String) (st : EngineS) : EngineS :=
  match plookup poolName st.pools with
  | some pool => { st with pools := pset poolName (releasedMark obj :: pool) st.pools }
  | none => st

/-- The engine's pools as constructed (`this.pools = { enemies: [],
bullets: [], powerUps: [] }`) with empty active lists. -/
def initialEngine : EngineS :=
  { pools := [("enemies", []), ("bullets", []), ("powerUps", [])],
    activeBullets := [], activeEnemies := [], activePowerUps := [],
    activeEffects := [], enemiesActive := 0, score := 0 }

/-- GameEngine3D.spawnEnemy (UIManager.js), at the pooling granularity:
acquires from the `enemies` pool; on `null` the spawn is skipped.  On
success `enemy.reset(type, config, position)` re-activates the instance
(its `_destroyed` flag is already cleared by the pool) and it is pushed
onto the active list with the active counter incremented.  The random
type/position draws only affect fields this layer does not track. -/
def spawnEnemy (st : EngineS) : Except JsError EngineS :=
  match getObjectFromPool "enemies" st with
  | Except.error err => Except.error err
  | Except.ok (some en, st2) =>
      Except.ok { st2 with
        activeEnemies := st2.activeEnemies ++ [en],
        enemiesActive := st2.enemiesActive + 1 }
  | Except.ok (none, st2) => Except.ok st2

/-- GameEngine3D.spawnBullet (UIManager.js), at the pooling granularity:
acquires from the `bullets` pool; on `null` the spawn is skipped. -/
def spawnBullet (st : EngineS) : Except JsError EngineS :=
  match getObjectFromPool "bullets" st with
  | Except.error err => Except.error err
  | Except.ok (some b, st2) =>
      Except.ok { st2 with activeBullets := st2.activeBullets ++ [b] }
  | Except.ok (none, st2) => Except.ok st2

/-- GameEngine3D.spawnPowerUp (UIManager.js), at the pooling granularity:
acquires from the `powerUps` pool; on `null` the spawn is skipped.  On
success `powerUp.reset(position, type)` re-activates the instance (with
the non-null position passed by the cleanup pass, reset never
self-destroys) and it is pushed onto the active list.  `randType` feeds
the random type draw, which only affects fields this layer does not
track. -/
def spawnPowerUp (_randType : ℚ) (st : EngineS) : Except JsError EngineS :=
  match getObjectFromPool "powerUps" st with
  | Except.error err => Except.error err
  | Except.ok (some pu, st2) =>
      Except.ok { st2 with activePowerUps := st2.activePowerUps ++ [pu] }
  | Except.ok (none, st2) => Except.ok st2

/-- GameEngine3D.updateScore (UIManager.js): adds and rounds
(`Math.round`, which is floor of x + 1/2, matching `round` on ℚ). -/
def updateScore (amount : ℚ) (st : EngineS) : EngineS :=
  { st with score := ((round (st.score + amount) : ℤ) : ℚ) }

/-- A stream of `Math.random()` draws for the cleanup pass. -/
def rngNext : List ℚ → ℚ × List ℚ
  | [] => (0, [])
  | r :: rest => (r, rest)

end Engine

namespace Engine

/-- The `cleanupList` closure inside GameEngine3D.cleanupEntities
(UIManager.js): filters a list, removing destroyed entities; each removed
entity has its mesh taken out of the scene and, when a pool name is
given, is returned to that pool.  Returns the kept entities (in order)
with the engine state after the side effects. -/
def cleanupList (poolName : Option String) :
    List Entity → EngineS → List Entity × EngineS
  | [], st => ([], st)
  | e :: rest, st =>
    if e.destroyed then
      let e2 : Entity := sceneRemove e
      let st2 : EngineS :=
        match poolName with
        | some pn => returnObjectToPool e2 pn st
        | none => st
      cleanupList poolName rest st2
    else
      let (kept, st2) := cleanupList poolName rest st
      (e :: kept, st2)

/-- The per-enemy body of the special enemy pass of cleanupEntities
(UIManager.js): a destroyed enemy decrements the active counter, scores,
has its mesh removed, rolls `Math.random() < (dropChance ?? 0.05)` to
spawn a power-up at `enemy.mesh.position` (a property read that throws
when the enemy has no mesh), and is returned to the `enemies` pool.  A
live enemy is kept. -/
def cleanupEnemyStep (e : Entity) (st : EngineS) (rng : List ℚ) :
    Except JsError (Option Entity × EngineS × List ℚ) :=
  if e.destroyed then
    let st2 : EngineS := { st with enemiesActive := st.enemiesActive - 1 }
    let st3 : EngineS := updateScore e.score st2
    let e2 : Entity := sceneRemove e
    let (r, rng2) := rngNext rng
    if r < jsNullish e.dropChance (5/100) then
      if e.hasMesh then
        let (r2, rng3) := rngNext rng2
        match spawnPowerUp r2 st3 with
        | Except.error err => Except.error err
        | Except.ok st4 => Except.ok (none, returnObjectToPool e2 "enemies" st4, rng3)
      else
        Except.error (JsError.typeError "Cannot read properties of null (reading position)")
    else
      Except.ok (none, returnObjectToPool e2 "enemies" st3, rng2)
  else
    Except.ok (some e, st, rng)

/-- The enemy pass of cleanupEntities: folds `cleanupEnemyStep` over the
active enemies, accumulating the kept ones in order. -/
def cleanupEnemies : List Entity → EngineS → List ℚ →
    Except JsError (List Entity × EngineS × List ℚ)
  | [], st, rng => Except.ok ([], st, rng)
  | e :: rest, st, rng =>
    match cleanupEnemyStep e st rng with
    | Except.error err => Except.error err
    | Except.ok (kept?, st2, rng2) =>
      match cleanupEnemies rest st2 rng2 with
      | Except.error err => Except.error err
      | Except.ok (kept, st3, rng3) =>
        match kept? with
        | some k => Except.ok (k :: kept, st3, rng3)
        | none => Except.ok (kept, st3, rng3)

/-- GameEngine3D.cleanupEntities (UIManager.js): cleans the bullet,
power-up and effect lists (effects are not pooled), then runs the special
enemy pass; each filtered list is assigned back to the engine.  `rng`
feeds the `Math.random()` draws of the enemy pass in order. -/
def cleanupEntities (rng : List ℚ) (st : EngineS) : Except JsError EngineS :=
  let (bullets, st2) := cleanupList (some "bullets") st.activeBullets st
  let st3 : EngineS := { st2 with activeBullets := bullets }
  let (powerUps, st4) := cleanupList (some "powerUps") st3.activePowerUps st3
  let st5 : EngineS := { st4 with activePowerUps := powerUps }
  let (effects, st6) := cleanupList none st5.activeEffects st5
  let st7 : EngineS := { st6 with activeEffects := effects }
  match cleanupEnemies st7.activeEnemies st7 rng with
  | Except.error err => Except.error err
  | Except.ok (enemies, st8, _) => Except.ok { st8 with activeEnemies := enemies }

/-- The entities of all four active lists. -/
def allActive (st : EngineS) : List Entity :=
  st.activeBullets ++ st.activeEnemies ++ st.activePowerUps ++ st.activeEffects

/-- The object identities stored in a named pool. -/
def poolIds (poolName : String) (st : EngineS) : List ℕ :=
  match plookup poolName st.pools with
  | some pool => pool.map Entity.eid
  | none => []

end Engine

namespace Engine

/-- Release a batch of instances into a pool, in list order
(repeated returnObjectToPool calls). -/
def releaseAll (poolName : String) (es : List Entity) (st : EngineS) : EngineS :=
  es.foldl (fun s e => returnObjectToPool e poolName s) st

/-- Acquire `n` times from a pool, collecting the `acquire` results in
call order (repeated getObjectFromPool calls). -/
def acquireSeq (poolName : String) : ℕ → EngineS → Except JsError (List (Option Entity) × EngineS)
  | 0, st => Except.ok ([], st)
  | n + 1, st =>
    match getObjectFromPool poolName st with
    | Except.error err => Except.error err
    | Except.ok (o, st2) =>
      match acquireSeq poolName n st2 with
      | Except.error err => Except.error err
      | Except.ok (os, st3) => Except.ok (o :: os, st3)

/-- The pools of a state all hold only deactivated instances: destroyed
and with their mesh out of the scene. -/
def poolsClean (st : EngineS) : Prop :=
  ∀ pn l, plookup pn st.pools = some l →
    ∀ e ∈ l, e.destroyed = true ∧ e.inScene = false

/-- A live bullet-like entity for concrete runs. -/
def sampleLiveBullet : Entity :=
  { eid := 1, destroyed := false, hasMesh := true, inScene := true,
    score := 0, dropChance := none }

/-- A destroyed bullet-like entity for concrete runs. -/
def sampleDeadBullet : Entity :=
  { eid := 2, destroyed := true, hasMesh := true, inScene := true,
    score := 0, dropChance := none }

/-- A destroyed basic enemy (score 1, drop chance 0.05) for concrete runs. -/
def sampleDeadEnemy : Entity :=
  { eid := 3, destroyed := true, hasMesh := true, inScene := true,
    score := 1, dropChance := some (5/100) }

/-- A pooled power-up instance for concrete runs. -/
def samplePooledPowerUp : Entity :=
  { eid := 4, destroyed := true, hasMesh := true, inScene := false,
    score := 0, dropChance := none }

/-- A small mid-game engine state: one live and one destroyed bullet
active, one destroyed enemy active, one power-up instance pooled. -/
def sampleCleanupEngine : EngineS :=
  { pools := [("enemies", []), ("bullets", []), ("powerUps", [samplePooledPowerUp])],
    activeBullets := [sampleLiveBullet, sampleDeadBullet],
    activeEnemies := [sampleDeadEnemy],
    activePowerUps := [], activeEffects := [],
    enemiesActive := 1, score := 0 }

end Engine

namespace Director

/-- A Playing state whose wave quota was never installed: remaining and
active counters both 0 (the engine's state before the first
startNextWave, with gameState forced to Playing). -/
def stuckState : DirectorState :=
  { gameState := GState.playing, score := 0, currentWave := 1,
    enemiesToSpawn := 0, enemiesRemainingInWave := 0, enemiesActive := 0,
    waveCooldownTimer := 0 }

/-- A Playing state mid-wave 1: the remaining-to-spawn counter still
holds the full quota 6 (the source never decrements it) while the last
active enemy has just been cleaned up. -/
def clearedState : DirectorState :=
  { gameState := GState.playing, score := 4, currentWave := 1,
    enemiesToSpawn := 6, enemiesRemainingInWave := 6, enemiesActive := 0,
    waveCooldownTimer := 0 }

end Director

namespace Enemy

/-- A freshly reset basic enemy (GameEngine3D.enemyTypes.basic through
Enemy.reset: health 15, speed 2, score 1, collision damage 30, drop
chance 0.05, shoot distance defaulting to 5, chase distance to 25),
idling mid-timer at the origin. -/
def sampleBasic : EnemyS :=
  { etype := "basic", health := 15, speed := 2, scoreVal := 1,
    collisionDamage := 30, dropChance := 5/100, canShoot := false,
    shootingInterval := none, shootDistance := 5, chaseDistance := 25,
    currentState := EState.idle, stateTimer := 2, destroyed := false,
    isInvincible := false, invincibilityTimer := 0, shootTimer := none,
    position := (0, 0, 0), velocity := (0, 0, 0) }

/-- A live player standing at distance 5 from the origin. -/
def samplePlayerView : PlayerView :=
  { position := (3, 0, 4), destroyed := false }

end Enemy

namespace Player

/-- The player as constructed: full health 100/100, no effects. -/
def freshPlayer : PlayerS :=
  { health := 100, maxHealth := 100, isInvincible := false,
    isShielded := false, destroyed := false, invincibilityTimer := 0 }

end Player

namespace Bullet

/-- A bullet that has already been destroyed (for concrete runs). -/
def sampleDestroyed : BulletS :=
  { speed := 25, damage := 8, isPlayerBullet := true, lifespanTimer := 1,
    destroyed := true, visible := false, position := (0, 0, 0),
    direction := (0, 0, -1) }

end Bullet

namespace PowerUp

/-- A power-up that has already been destroyed (for concrete runs). -/
def sampleDestroyed : PowerUpS :=
  { ptype := "heal", destroyed := true, visible := false, bobTimer := 0 }

end PowerUp

/-- setState always lands in the requested state. -/
theorem Enemy.setState_currentState (r : ℚ) (ns : Enemy.EState) (e : Enemy.EnemyS) :
    (Enemy.setState r ns e).currentState = ns := by
  unfold Enemy.setState
  by_cases h : ns = e.currentState
  · simp [h]
  · cases ns <;> simp [h] <;> split <;> simp

/-- setState never touches the destroyed flag. -/
theorem Enemy.setState_destroyed (r : ℚ) (ns : Enemy.EState) (e : Enemy.EnemyS) :
    (Enemy.setState r ns e).destroyed = e.destroyed := by
  unfold Enemy.setState
  by_cases h : ns = e.currentState
  · simp [h]
  · cases ns <;> simp [h] <;> split <;> simp

/-- setState never touches health. -/
theorem Enemy.setState_health (r : ℚ) (ns : Enemy.EState) (e : Enemy.EnemyS) :
    (Enemy.setState r ns e).health = e.health := by
  unfold Enemy.setState
  by_cases h : ns = e.currentState
  · simp [h]
  · cases ns <;> simp [h] <;> split <;> simp

/-- setState never touches the invincibility fields. -/
theorem Enemy.setState_invincibility (r : ℚ) (ns : Enemy.EState) (e : Enemy.EnemyS) :
    (Enemy.setState r ns e).isInvincible = e.isInvincible
      ∧ (Enemy.setState r ns e).invincibilityTimer = e.invincibilityTimer := by
  unfold Enemy.setState
  by_cases h : ns = e.currentState
  · simp [h]
  · cases ns <;> simp [h] <;> split <;> simp

/-- Enemy.destroy always leaves the destroyed flag set. -/
theorem Enemy.destroy_destroyed (e : Enemy.EnemyS) : (Enemy.destroy e).destroyed = true := by
  unfold Enemy.destroy
  by_cases h : e.destroyed
  · simp [h]
  · simp [h, Enemy.setState_destroyed]

/-- C10: destroy() is idempotent for every pooled entity kind — calling
destroy() on an already-destroyed Bullet, Enemy, or PowerUp is a no-op
that leaves all of the entity's state unchanged, and a second destroy()
after a first never changes anything further. -/
theorem c10_destroy_idempotent (b : Bullet.BulletS) (e : Enemy.EnemyS) (p : PowerUp.PowerUpS) :
    (b.destroyed = true → Bullet.destroy b = b)
    ∧ (e.destroyed = true → Enemy.destroy e = e)
    ∧ (p.destroyed = true → PowerUp.destroy p = p)
    ∧ Bullet.destroy (Bullet.destroy b) = Bullet.destroy b
    ∧ Enemy.destroy (Enemy.destroy e) = Enemy.destroy e
    ∧ PowerUp.destroy (PowerUp.destroy p) = PowerUp.destroy p := by
  have hb : ∀ b2 : Bullet.BulletS, b2.destroyed = true → Bullet.destroy b2 = b2 := by
    intro b2 h; unfold Bullet.destroy; simp [h]
  have he : ∀ e2 : Enemy.EnemyS, e2.destroyed = true → Enemy.destroy e2 = e2 := by
    intro e2 h; unfold Enemy.destroy; simp [h]
  have hp : ∀ p2 : PowerUp.PowerUpS, p2.destroyed = true → PowerUp.destroy p2 = p2 := by
    intro p2 h; unfold PowerUp.destroy; simp [h]
  refine ⟨hb b, he e, hp p, ?_, ?_, ?_⟩
  · by_cases h : b.destroyed
    · rw [hb b h]; exact hb b h
    · have : (Bullet.destroy b).destroyed = true := by
        unfold Bullet.destroy; simp [h]
      exact hb _ this
  · exact he _ (Enemy.destroy_destroyed e)
  · by_cases h : p.destroyed
    · rw [hp p h]; exact hp p h
    · have : (PowerUp.destroy p).destroyed = true := by
        unfold PowerUp.destroy; simp [h]
      exact hp _ this

/-- C10 witness: the idempotence facts evaluated on concrete destroyed
instances. -/
theorem c10_witness :
    Bullet.sampleDestroyed.destroyed = true
    ∧ Bullet.destroy Bullet.sampleDestroyed = Bullet.sampleDestroyed
    ∧ Enemy.destroy (Enemy.destroy Enemy.sampleBasic) = Enemy.destroy Enemy.sampleBasic
    ∧ PowerUp.destroy PowerUp.sampleDestroyed = PowerUp.sampleDestroyed := by
  have h := c10_destroy_idempotent Bullet.sampleDestroyed Enemy.sampleBasic PowerUp.sampleDestroyed
  exact ⟨by decide, h.1 (by decide), h.2.2.2.2.1, h.2.2.1 (by decide)⟩

/-- Player.takeDamage leaves maxHealth alone and either leaves health
alone (blocked) or sets it to the clamped value. -/
theorem Player.takeDamage_fields (a : ℚ) (p : Player.PlayerS) :
    (Player.takeDamage a p).2.maxHealth = p.maxHealth
    ∧ ((Player.takeDamage a p).2.health = p.health
        ∨ (Player.takeDamage a p).2.health = max 0 (p.health - a)) := by
  unfold Player.takeDamage Player.die
  split
  · exact ⟨rfl, Or.inl rfl⟩
  · dsimp only
    constructor
    · split
      · split <;> rfl
      · rfl
    · right
      split
      · split <;> rfl
      · rfl

/-- Player.heal leaves maxHealth alone and either leaves health alone
(destroyed) or sets it to the clamped value. -/
theorem Player.heal_fields (a : ℚ) (p : Player.PlayerS) :
    (Player.heal a p).maxHealth = p.maxHealth
    ∧ ((Player.heal a p).health = p.health
        ∨ (Player.heal a p).health = min p.maxHealth (p.health + a)) := by
  unfold Player.heal
  split
  · exact ⟨rfl, Or.inl rfl⟩
  · exact ⟨rfl, Or.inr rfl⟩

/-- One takeDamage or heal call keeps health within bounds and preserves
maxHealth, provided the amount is non-negative. -/
theorem Player.applyOp_bounds (p : Player.PlayerS) (op : Player.POp)
    (hamt : 0 ≤ op.amount) (h0 : 0 ≤ p.health) (h1 : p.health ≤ p.maxHealth) :
    0 ≤ (Player.applyOp p op).health
    ∧ (Player.applyOp p op).health ≤ (Player.applyOp p op).maxHealth
    ∧ (Player.applyOp p op).maxHealth = p.maxHealth := by
  have hmax : (0 : ℚ) ≤ p.maxHealth := le_trans h0 h1
  cases op with
  | damage a =>
    simp only [Player.POp.amount] at hamt
    have hf := Player.takeDamage_fields a p
    have happ : Player.applyOp p (Player.POp.damage a) = (Player.takeDamage a p).2 := rfl
    rw [happ, hf.1]
    rcases hf.2 with hh | hh <;> rw [hh]
    · exact ⟨h0, h1, rfl⟩
    · exact ⟨le_max_left 0 _, max_le hmax (by linarith), rfl⟩
  | heal a =>
    simp only [Player.POp.amount] at hamt
    have hf := Player.heal_fields a p
    have happ : Player.applyOp p (Player.POp.heal a) = Player.heal a p := rfl
    rw [happ, hf.1]
    rcases hf.2 with hh | hh <;> rw [hh]
    · exact ⟨h0, h1, rfl⟩
    · exact ⟨le_min hmax (by linarith), min_le_left _ _, rfl⟩

/-- C9: the player's health always stays within 0 and maxHealth —
takeDamage clamps at 0 from below, heal clamps at maxHealth from above,
across every sequence of takeDamage/heal calls with non-negative
amounts. -/
theorem c9_player_health_bounds (ops : List Player.POp) (p : Player.PlayerS)
    (h0 : 0 ≤ p.health) (h1 : p.health ≤ p.maxHealth)
    (hamt : ∀ op ∈ ops, 0 ≤ op.amount) :
    0 ≤ (Player.applyOps ops p).health
    ∧ (Player.applyOps ops p).health ≤ (Player.applyOps ops p).maxHealth
    ∧ (Player.applyOps ops p).maxHealth = p.maxHealth := by
  induction ops generalizing p with
  | nil => exact ⟨h0, h1, rfl⟩
  | cons op rest ih =>
    have hop := Player.applyOp_bounds p op (hamt op (List.mem_cons_self op rest)) h0 h1
    have hrest : ∀ o ∈ rest, 0 ≤ o.amount := fun o ho => hamt o (List.mem_cons_of_mem op ho)
    have hstep : Player.applyOps (op :: rest) p = Player.applyOps rest (Player.applyOp p op) := rfl
    rw [hstep]
    have ihr := ih (Player.applyOp p op) hop.1 hop.2.1 hrest
    exact ⟨ihr.1, ihr.2.1, ihr.2.2.trans hop.2.2⟩

/-- C9 witness: a concrete overkill-damage and overheal sequence on the
fresh player stays within bounds. -/
theorem c9_witness :
    0 ≤ (Player.applyOps
          [Player.POp.damage 30, Player.POp.heal 25,
            Player.POp.damage 200, Player.POp.heal 500] Player.freshPlayer).health
    ∧ (Player.applyOps
          [Player.POp.damage 30, Player.POp.heal 25,
            Player.POp.damage 200, Player.POp.heal 500] Player.freshPlayer).health
        ≤ (Player.applyOps
          [Player.POp.damage 30, Player.POp.heal 25,
            Player.POp.damage 200, Player.POp.heal 500] Player.freshPlayer).maxHealth := by
  have h := c9_player_health_bounds
    [Player.POp.damage 30, Player.POp.heal 25,
      Player.POp.damage 200, Player.POp.heal 500] Player.freshPlayer
    (by norm_num [Player.freshPlayer]) (by norm_num [Player.freshPlayer])
    (by intro op hop; fin_cases hop <;> norm_num [Player.POp.amount])
  exact ⟨h.1, h.2.1⟩

/-- When not blocked, takeDamage returns the amount with the updated
enemy spelled out. -/
theorem Enemy.takeDamage_open (amount : ℚ) (e : Enemy.EnemyS)
    (h : ¬ (e.isInvincible = true ∨ e.destroyed = true
        ∨ e.currentState = Enemy.EState.dying
        ∨ e.currentState = Enemy.EState.inactive)) :
    Enemy.takeDamage amount e
      = (amount,
          if max 0 (e.health - amount) ≤ 0 then
            Enemy.setState 0 Enemy.EState.dying
              (Enemy.applyInvincibility Enemy.invincibilityDuration
                { e with health := max 0 (e.health - amount) })
          else
            Enemy.applyInvincibility Enemy.invincibilityDuration
              { e with health := max 0 (e.health - amount) }) := by
  unfold Enemy.takeDamage
  rw [if_neg h]
  rfl

/-- C4: takeDamage returns 0 and changes nothing when the enemy is
invincible, destroyed, Dying or Inactive; otherwise it clamps health at
0, grants a 300 ms invincibility window, enters Dying exactly when
health reaches zero, and returns the amount — so a second takeDamage
within the same 300 ms window (after a timer tick of dt seconds with
dt * 1000 < 300) records nothing, leaving the total at the first call's
amount. -/
theorem c4_enemy_takeDamage (e : Enemy.EnemyS) (amount amount2 dt : ℚ) :
    ((e.isInvincible = true ∨ e.destroyed = true ∨ e.currentState = Enemy.EState.dying
        ∨ e.currentState = Enemy.EState.inactive) →
      Enemy.takeDamage amount e = (0, e))
    ∧ (¬ (e.isInvincible = true ∨ e.destroyed = true ∨ e.currentState = Enemy.EState.dying
        ∨ e.currentState = Enemy.EState.inactive) →
      (Enemy.takeDamage amount e).1 = amount
      ∧ (Enemy.takeDamage amount e).2.health = max 0 (e.health - amount)
      ∧ (Enemy.takeDamage amount e).2.isInvincible = true
      ∧ (Enemy.takeDamage amount e).2.invincibilityTimer = 300
      ∧ ((Enemy.takeDamage amount e).2.currentState = Enemy.EState.dying
          ↔ e.health - amount ≤ 0)
      ∧ (0 ≤ dt → dt * 1000 < 300 →
          Enemy.takeDamage amount2 (Enemy.updateTimers dt (Enemy.takeDamage amount e).2)
            = (0, Enemy.updateTimers dt (Enemy.takeDamage amount e).2))) := by
  constructor
  · intro h
    unfold Enemy.takeDamage
    rw [if_pos h]
  · intro h
    have hstate : e.currentState ≠ Enemy.EState.dying := fun hc => h (Or.inr (Or.inr (Or.inl hc)))
    rw [Enemy.takeDamage_open amount e h]
    have hinv : ∀ e2 : Enemy.EnemyS,
        (Enemy.applyInvincibility Enemy.invincibilityDuration e2).isInvincible = true
          ∧ (Enemy.applyInvincibility Enemy.invincibilityDuration e2).invincibilityTimer = 300 :=
      fun e2 => ⟨rfl, rfl⟩
    by_cases hle : max 0 (e.health - amount) ≤ 0
    · rw [if_pos hle]
      have hle2 : e.health - amount ≤ 0 := by
        rcases max_le_iff.mp hle with ⟨_, h2⟩; exact h2
      refine ⟨rfl, ?_, ?_, ?_, ?_, ?_⟩
      · rw [Enemy.setState_health]; rfl
      · rw [(Enemy.setState_invincibility _ _ _).1]; exact (hinv _).1
      · rw [(Enemy.setState_invincibility _ _ _).2]; exact (hinv _).2
      · simp [Enemy.setState_currentState, hle2]
      · intro hdt hwin
        have hi : (Enemy.updateTimers dt
            (Enemy.setState 0 Enemy.EState.dying
              (Enemy.applyInvincibility Enemy.invincibilityDuration
                { e with health := max 0 (e.health - amount) }))).isInvincible = true := by
          unfold Enemy.updateTimers
          rw [(Enemy.setState_invincibility _ _ _).1, (hinv _).1,
            (Enemy.setState_invincibility _ _ _).2, (hinv _).2]
          have : ¬ ((300 : ℚ) - dt * 1000 ≤ 0) := by linarith
          simp [this]
        unfold Enemy.takeDamage
        rw [if_pos (Or.inl hi)]
    · rw [if_neg hle]
      have hle2 : ¬ (e.health - amount ≤ 0) := by
        intro h2; exact hle (max_le le_rfl h2)
      refine ⟨rfl, rfl, (hinv _).1, (hinv _).2, ?_, ?_⟩
      · constructor
        · intro hc
          exact absurd hc hstate
        · intro h2; exact absurd h2 hle2
      · intro hdt hwin
        have hi : (Enemy.updateTimers dt
            (Enemy.applyInvincibility Enemy.invincibilityDuration
              { e with health := max 0 (e.health - amount) })).isInvincible = true := by
          unfold Enemy.updateTimers
          rw [(hinv _).1, (hinv _).2]
          have : ¬ ((300 : ℚ) - dt * 1000 ≤ 0) := by linarith
          simp [this]
        unfold Enemy.takeDamage
        rw [if_pos (Or.inl hi)]

/-- C4 witness: an 8-damage hit on the fresh basic enemy (health 15)
records 8 and leaves 7 health, and a second hit 0.1 s later (inside the
300 ms window) records 0. -/
theorem c4_witness :
    (Enemy.takeDamage 8 Enemy.sampleBasic).1 = 8
    ∧ (Enemy.takeDamage 8 Enemy.sampleBasic).2.health = 7
    ∧ (Enemy.takeDamage 8
        (Enemy.updateTimers (1/10) (Enemy.takeDamage 8 Enemy.sampleBasic).2)).1 = 0 := by
  have h := (c4_enemy_takeDamage Enemy.sampleBasic 8 8 (1/10)).2 (by decide)
  refine ⟨h.1, ?_, ?_⟩
  · rw [h.2.1]
    norm_num [Enemy.sampleBasic]
  · have h6 := h.2.2.2.2.2 (by norm_num) (by norm_num)
    rw [h6]

/-- C8: an Idle enemy with a live player within chase range is Chasing
after the next updateFSM tick, whatever the idle timer held — the
distance transition pre-empts the timer logic. -/
theorem c8_idle_to_chasing (e : Enemy.EnemyS) (p : Enemy.PlayerView)
    (rand dt : ℚ) (chase : V3)
    (hstate : e.currentState = Enemy.EState.idle)
    (hp : p.destroyed = false)
    (hdist : distanceToSquared e.position p.position
        ≤ e.chaseDistance * e.chaseDistance) :
    (Enemy.updateFSM rand chase dt (some p) e).currentState = Enemy.EState.chasing := by
  have hd2 : decide (distanceToSquared e.position p.position
      ≤ e.chaseDistance * e.chaseDistance) = true := decide_eq_true hdist
  simp only [Enemy.updateFSM, hp, Bool.false_eq_true, if_false]
  dsimp only
  rw [hstate]
  by_cases ht : e.stateTimer - dt ≤ 0 <;>
    simp [ht, hd2, Enemy.setState_currentState]

/-- C8 witness: the fresh basic enemy at the origin with 2 s left on its
idle timer, player alive at squared distance 25 with chase distance 25:
one tick lands in Chasing. -/
theorem c8_witness :
    (Enemy.updateFSM (1/2) (0, 0, 0) (1/60) (some Enemy.samplePlayerView)
        Enemy.sampleBasic).currentState = Enemy.EState.chasing := by
  refine c8_idle_to_chasing Enemy.sampleBasic Enemy.samplePlayerView (1/2) (1/60) (0, 0, 0)
    (by decide) (by decide) ?_
  norm_num [distanceToSquared, Enemy.sampleBasic, Enemy.samplePlayerView]

/-- C1 counterexample: with the remaining-to-spawn counter at zero and no
active enemies, updateGameState leaves the Playing state alone — and with
the counter still positive (it is never decremented) and no active
enemies, it does transition.  Detection is therefore not "remaining is
zero and active is zero". -/
theorem c1_counterexample :
    Director.stuckState.gameState = Director.GState.playing
    ∧ Director.stuckState.enemiesRemainingInWave = 0
    ∧ Director.stuckState.enemiesActive = 0
    ∧ Director.updateGameState (1/60) Director.stuckState = Director.stuckState
    ∧ (Director.updateGameState (1/60) Director.stuckState).gameState
        ≠ Director.GState.waveTransition
    ∧ Director.clearedState.enemiesRemainingInWave = 6
    ∧ Director.clearedState.enemiesActive = 0
    ∧ (Director.updateGameState (1/60) Director.clearedState).gameState
        = Director.GState.waveTransition := by
  refine ⟨rfl, rfl, rfl, rfl, ?_, rfl, rfl, rfl⟩
  decide

/-- C1 amended: in Playing, the Director enters WaveTransition exactly
when the remaining-in-wave counter is positive (it is never decremented,
so it holds the full quota all wave) and the active-enemy count is at
most zero, setting the 3000 ms cooldown; in WaveTransition the cooldown
ticks down by dt * 1000 and the next wave starts when it reaches 0. -/
theorem c1_amended (s : Director.DirectorState) (dt : ℚ) :
    (s.gameState = Director.GState.playing →
      (((Director.updateGameState dt s).gameState = Director.GState.waveTransition
          ↔ 0 < s.enemiesRemainingInWave ∧ s.enemiesActive ≤ 0)
        ∧ (0 < s.enemiesRemainingInWave ∧ s.enemiesActive ≤ 0 →
            (Director.updateGameState dt s).waveCooldownTimer = 3000
            ∧ (Director.updateGameState dt s).currentWave = s.currentWave)))
    ∧ (s.gameState = Director.GState.waveTransition →
      (0 < s.waveCooldownTimer - dt * 1000 →
          Director.updateGameState dt s
            = { s with waveCooldownTimer := s.waveCooldownTimer - dt * 1000 })
        ∧ (s.waveCooldownTimer - dt * 1000 ≤ 0 →
          Director.updateGameState dt s
            = Director.startNextWave
                { s with waveCooldownTimer := s.waveCooldownTimer - dt * 1000 })) := by
  constructor
  · intro hplay
    unfold Director.updateGameState
    rw [if_pos hplay]
    by_cases hc : 0 < s.enemiesRemainingInWave ∧ s.enemiesActive ≤ 0
    · rw [if_pos hc]
      exact ⟨by simp [hc], fun _ => ⟨rfl, rfl⟩⟩
    · rw [if_neg hc]
      constructor
      · rw [hplay]
        constructor
        · intro h2
          exact absurd h2 (by simp)
        · intro h2
          exact absurd h2 hc
      · intro h2
        exact absurd h2 hc
  · intro hwt
    have hnp : s.gameState ≠ Director.GState.playing := by
      rw [hwt]; decide
    unfold Director.updateGameState
    rw [if_neg hnp, if_pos hwt]
    constructor
    · intro hpos
      rw [if_neg (by dsimp only; linarith)]
    · intro hneg
      rw [if_pos (by dsimp only; linarith)]

/-- C1 witness: the amended detection rule evaluated on the concrete
cleared-wave state. -/
theorem c1_witness :
    (Director.updateGameState (1/60) Director.clearedState).gameState
      = Director.GState.waveTransition
    ∧ (Director.updateGameState (1/60) Director.clearedState).waveCooldownTimer = 3000 := by
  have h := (c1_amended Director.clearedState (1/60)).1 rfl
  exact ⟨h.1.mpr ⟨by decide, by decide⟩, (h.2 ⟨by decide, by decide⟩).1⟩

/-- C3 counterexample: fire the pistol (0.3 s cooldown starts), switch to
the rifle with no time elapsed — the switch zeroes the cooldown timer and
the very next fire() succeeds immediately, so the claimed "cannot fire
before the equipped weapon's cooldown elapses" fails. -/
theorem c3_counterexample :
    (Weapon.fire Weapon.defaultWM).1 = true
    ∧ (Weapon.fire Weapon.defaultWM).2.fireTimer = 3/10
    ∧ (Weapon.switchToNextWeapon (Weapon.fire Weapon.defaultWM).2).equippedWeaponId
        = some "rifle"
    ∧ (Weapon.switchToNextWeapon (Weapon.fire Weapon.defaultWM).2).fireTimer = 0
    ∧ (Weapon.fire (Weapon.switchToNextWeapon (Weapon.fire Weapon.defaultWM).2)).1
        = true := by
  exact ⟨rfl, rfl, rfl, rfl, rfl⟩

/-- C3 amended: equipping a weapon (also via the switch functions, which
reduce to equipWeapon) sets the fire-cooldown timer to zero, so fire()
can succeed immediately after the switch — it is blocked only by an
exhausted finite ammo count, never by the previous weapon's pending
cooldown. -/
theorem c3_amended (s : Weapon.WM) (id : String) :
    ((Weapon.equipWeapon id s).1 = true →
      (Weapon.equipWeapon id s).2.fireTimer = 0
      ∧ (Weapon.canFire (Weapon.equipWeapon id s).2 = true
          ∨ ∃ w a, Weapon.currentWeapon (Weapon.equipWeapon id s).2 = some w
              ∧ w.ammoCurrent = some a ∧ a ≤ 0))
    ∧ (2 ≤ s.weapons.length →
      (∃ id2, Weapon.switchToNextWeapon s = (Weapon.equipWeapon id2 s).2)
      ∧ (∃ id3, Weapon.switchToPreviousWeapon s = (Weapon.equipWeapon id3 s).2)) := by
  constructor
  · intro hsucc
    unfold Weapon.equipWeapon at hsucc ⊢
    by_cases hcond : (Weapon.wlookup id s.weapons).isNone = true
        ∨ s.equippedWeaponId = some id
    · rw [if_pos hcond] at hsucc
      simp at hsucc
    · rw [if_neg hcond]
      refine ⟨rfl, ?_⟩
      have hlook : ∃ w, Weapon.wlookup id s.weapons = some w := by
        cases hl : Weapon.wlookup id s.weapons with
        | none => exact absurd (Or.inl (by rw [hl]; rfl)) hcond
        | some w => exact ⟨w, rfl⟩
      obtain ⟨w, hw⟩ := hlook
      have hcw : Weapon.currentWeapon
          { s with equippedWeaponId := some id, fireTimer := 0 } = some w := by
        unfold Weapon.currentWeapon
        exact hw
      cases ha : w.ammoCurrent with
      | none =>
        left
        unfold Weapon.canFire
        rw [hcw]
        simp [ha]
      | some a =>
        by_cases hle : a ≤ 0
        · right
          exact ⟨w, a, hcw, ha, hle⟩
        · left
          unfold Weapon.canFire
          rw [hcw]
          simp [ha, hle]
  · intro hlen
    have hnle : ¬ s.weapons.length ≤ 1 := by omega
    constructor
    · refine ⟨(s.weapons.map Prod.fst).getD
        (((Weapon.indexOfId (s.weapons.map Prod.fst) s.equippedWeaponId + 1)
          % ((s.weapons.map Prod.fst).length : ℤ)).toNat) "", ?_⟩
      unfold Weapon.switchToNextWeapon
      rw [if_neg hnle]
    · refine ⟨(s.weapons.map Prod.fst).getD
        (((Weapon.indexOfId (s.weapons.map Prod.fst) s.equippedWeaponId - 1
            + ((s.weapons.map Prod.fst).length : ℤ))
          % ((s.weapons.map Prod.fst).length : ℤ)).toNat) "", ?_⟩
      unfold Weapon.switchToPreviousWeapon
      rw [if_neg hnle]

/-- C3 witness: equipping the rifle on the default manager zeroes the
timer and leaves fire() possible at once. -/
theorem c3_witness :
    (Weapon.equipWeapon "rifle" Weapon.defaultWM).2.fireTimer = 0
    ∧ (Weapon.canFire (Weapon.equipWeapon "rifle" Weapon.defaultWM).2 = true
        ∨ ∃ w a, Weapon.currentWeapon (Weapon.equipWeapon "rifle" Weapon.defaultWM).2 = some w
            ∧ w.ammoCurrent = some a ∧ a ≤ 0) := by
  exact (c3_amended Weapon.defaultWM "rifle").1 rfl

/-- A successful registry lookup is a membership. -/
theorem Weapon.wlookup_mem (id : String) (l : List (String × Weapon.WeaponCfg))
    (w : Weapon.WeaponCfg) (h : Weapon.wlookup id l = some w) : (id, w) ∈ l := by
  induction l with
  | nil => simp [Weapon.wlookup] at h
  | cons p rest ih =>
    obtain ⟨k, v⟩ := p
    unfold Weapon.wlookup at h
    by_cases hk : k = id
    · rw [if_pos hk] at h
      have hv : v = w := Option.some_inj.mp h
      rw [hk, hv]
      exact List.mem_cons_self _ _
    · rw [if_neg hk] at h
      exact List.mem_cons_of_mem _ (ih h)

/-- Updating the looked-up entry makes the lookup return the new value. -/
theorem Weapon.wlookup_wupdate_self (id : String) (w2 : Weapon.WeaponCfg)
    (l : List (String × Weapon.WeaponCfg)) (w : Weapon.WeaponCfg)
    (h : Weapon.wlookup id l = some w) :
    Weapon.wlookup id (Weapon.wupdate id w2 l) = some w2 := by
  induction l with
  | nil => simp [Weapon.wlookup] at h
  | cons p rest ih =>
    unfold Weapon.wlookup at h
    unfold Weapon.wupdate
    by_cases hk : p.1 = id
    · rw [if_pos hk]
      unfold Weapon.wlookup
      rw [if_pos hk]
    · rw [if_neg hk]
      unfold Weapon.wlookup
      rw [if_neg hk]
      rw [if_neg hk] at h
      exact ih h

/-- Every entry of an updated registry is the new entry or an old one. -/
theorem Weapon.mem_wupdate (id : String) (w2 : Weapon.WeaponCfg)
    (l : List (String × Weapon.WeaponCfg)) (p : String × Weapon.WeaponCfg)
    (h : p ∈ Weapon.wupdate id w2 l) : p.2 = w2 ∨ p ∈ l := by
  induction l with
  | nil => simp [Weapon.wupdate] at h
  | cons q rest ih =>
    unfold Weapon.wupdate at h
    by_cases hk : q.1 = id
    · rw [if_pos hk] at h
      rcases List.mem_cons.mp h with h1 | h1
      · left; rw [h1]
      · right; exact List.mem_cons_of_mem q h1
    · rw [if_neg hk] at h
      rcases List.mem_cons.mp h with h1 | h1
      · right; rw [h1]; exact List.mem_cons_self q rest
      · rcases ih h1 with h2 | h2
        · left; exact h2
        · right; exact List.mem_cons_of_mem q h2

/-- canFire is false exactly in the three documented situations. -/
theorem Weapon.canFire_false_iff (s : Weapon.WM) :
    Weapon.canFire s = false ↔
      (Weapon.currentWeapon s = none ∨ 0 < s.fireTimer
        ∨ ∃ w a, Weapon.currentWeapon s = some w
            ∧ w.ammoCurrent = some a ∧ a ≤ 0) := by
  unfold Weapon.canFire
  cases hcw : Weapon.currentWeapon s with
  | none => simp
  | some w =>
    dsimp only
    by_cases ht : s.fireTimer > 0
    · simp [ht]
    · rw [if_neg ht]
      cases ha : w.ammoCurrent with
      | none =>
        dsimp only
        constructor
        · intro h
          exact Bool.noConfusion h
        · intro h
          exfalso
          rcases h with h | h | ⟨w2, a2, hw2, ha2, _⟩
          · exact Option.noConfusion h
          · exact ht h
          · rw [← Option.some_inj.mp hw2] at ha2
            rw [ha] at ha2
            exact Option.noConfusion ha2
      | some a =>
        dsimp only
        by_cases hle : a ≤ 0
        · rw [if_pos hle]
          exact iff_of_true rfl (Or.inr (Or.inr ⟨w, a, rfl, ha, hle⟩))
        · rw [if_neg hle]
          constructor
          · intro h
            exact Bool.noConfusion h
          · intro h
            exfalso
            rcases h with h | h | ⟨w2, a2, hw2, ha2, hle2⟩
            · exact Option.noConfusion h
            · exact ht h
            · rw [← Option.some_inj.mp hw2] at ha2
              rw [ha] at ha2
              exact hle (Option.some_inj.mp ha2 ▸ hle2)


/-- currentWeapon under a known equipped id is the registry lookup. -/
theorem Weapon.currentWeapon_eq (s : Weapon.WM) (id : String)
    (hid : s.equippedWeaponId = some id) :
    Weapon.currentWeapon s = Weapon.wlookup id s.weapons := by
  unfold Weapon.currentWeapon
  rw [hid]

/-- currentWeapon with nothing equipped is absent. -/
theorem Weapon.currentWeapon_none (s : Weapon.WM)
    (hid : s.equippedWeaponId = none) :
    Weapon.currentWeapon s = none := by
  unfold Weapon.currentWeapon
  rw [hid]

/-- A Bool that is not true is false. -/
theorem Weapon.bool_not_true {b : Bool} (h : ¬ b = true) : b = false := by
  cases b
  · rfl
  · exact absurd rfl h

/-- fire fails exactly when canFire is false, and then changes nothing. -/
theorem Weapon.fire_fails (s : Weapon.WM) :
    ((Weapon.fire s).1 = false ↔ Weapon.canFire s = false)
    ∧ ((Weapon.fire s).1 = false → (Weapon.fire s).2 = s) := by
  unfold Weapon.fire
  by_cases hcf : Weapon.canFire s = true
  · rw [if_neg (by simp [hcf])]
    cases hid : s.equippedWeaponId with
    | none =>
      exfalso
      have hn := Weapon.currentWeapon_none s hid
      have hfalse : Weapon.canFire s = false :=
        (Weapon.canFire_false_iff s).mpr (Or.inl hn)
      rw [hfalse] at hcf
      exact Bool.noConfusion hcf
    | some id =>
      have hce := Weapon.currentWeapon_eq s id hid
      cases hcw2 : Weapon.wlookup id s.weapons with
      | none =>
        exfalso
        have hfalse : Weapon.canFire s = false :=
          (Weapon.canFire_false_iff s).mpr (Or.inl (hce.trans hcw2))
        rw [hfalse] at hcf
        exact Bool.noConfusion hcf
      | some w =>
        rw [hce.trans hcw2]
        dsimp only
        constructor
        · constructor
          · intro h
            exact absurd h (by simp)
          · intro h
            rw [h] at hcf
            exact Bool.noConfusion hcf
        · intro h
          exact absurd h (by simp)
  · have hcf2 : Weapon.canFire s = false := Weapon.bool_not_true hcf
    rw [if_pos (by simp [hcf2])]
    exact ⟨by simp [hcf2], fun _ => rfl⟩

/-- On success, fire resets the cooldown to the equipped weapon's and
decrements its finite ammo in the registry. -/
theorem Weapon.fire_success (s : Weapon.WM) (w : Weapon.WeaponCfg)
    (hfire : (Weapon.fire s).1 = true) (hcw : Weapon.currentWeapon s = some w) :
    (Weapon.fire s).2.fireTimer = w.cooldown
    ∧ (Weapon.fire s).2.equippedWeaponId = s.equippedWeaponId
    ∧ Weapon.currentWeapon (Weapon.fire s).2
        = some { w with ammoCurrent := Weapon.ammoDec w.ammoCurrent } := by
  have hcf : Weapon.canFire s = true := by
    by_contra hc
    have hff := ((Weapon.fire_fails s).1).mpr (Weapon.bool_not_true hc)
    rw [hff] at hfire
    exact Bool.noConfusion hfire
  cases hid : s.equippedWeaponId with
  | none =>
    exfalso
    rw [Weapon.currentWeapon_none s hid] at hcw
    exact Option.noConfusion hcw
  | some id =>
    have hcw2 : Weapon.wlookup id s.weapons = some w :=
      (Weapon.currentWeapon_eq s id hid).symm.trans hcw
    have hfeq : Weapon.fire s
        = (true, { s with
            fireTimer := w.cooldown,
            weapons := Weapon.wupdate id
              { w with ammoCurrent := Weapon.ammoDec w.ammoCurrent } s.weapons }) := by
      unfold Weapon.fire
      rw [if_neg (by simp [hcf]), hid, hcw]
    rw [hfeq]
    refine ⟨rfl, hid, ?_⟩
    have hid2 : ({ s with
        fireTimer := w.cooldown,
        weapons := Weapon.wupdate id
          { w with ammoCurrent := Weapon.ammoDec w.ammoCurrent } s.weapons
        : Weapon.WM }).equippedWeaponId = some id := hid
    rw [Weapon.currentWeapon_eq _ id hid2]
    exact Weapon.wlookup_wupdate_self id _ s.weapons w hcw2

/-- update only ever changes the fire timer. -/
theorem Weapon.update_fields (d : ℚ) (s : Weapon.WM) :
    (Weapon.update d s).weapons = s.weapons
    ∧ (Weapon.update d s).equippedWeaponId = s.equippedWeaponId := by
  unfold Weapon.update
  split
  · exact ⟨rfl, rfl⟩
  · exact ⟨rfl, rfl⟩

/-- A sequence of updates only ever changes the fire timer. -/
theorem Weapon.applyUpdates_fields (dts : List ℚ) (s : Weapon.WM) :
    (Weapon.applyUpdates dts s).weapons = s.weapons
    ∧ (Weapon.applyUpdates dts s).equippedWeaponId = s.equippedWeaponId := by
  induction dts generalizing s with
  | nil => exact ⟨rfl, rfl⟩
  | cons d rest ih =>
    have hstep : Weapon.applyUpdates (d :: rest) s
        = Weapon.applyUpdates rest (Weapon.update d s) := rfl
    rw [hstep]
    have h1 := ih (Weapon.update d s)
    have h2 := Weapon.update_fields d s
    exact ⟨h1.1.trans h2.1, h1.2.trans h2.2⟩

/-- Non-negative updates cannot push the fire timer below its start
minus the elapsed time. -/
theorem Weapon.applyUpdates_fireTimer (dts : List ℚ) (s : Weapon.WM)
    (h : ∀ d ∈ dts, 0 ≤ d) :
    s.fireTimer - dts.sum ≤ (Weapon.applyUpdates dts s).fireTimer := by
  induction dts generalizing s with
  | nil => simp [Weapon.applyUpdates]
  | cons d rest ih =>
    have hstep : Weapon.applyUpdates (d :: rest) s
        = Weapon.applyUpdates rest (Weapon.update d s) := rfl
    rw [hstep]
    have hd : 0 ≤ d := h d (List.mem_cons_self d rest)
    have hrest : ∀ x ∈ rest, 0 ≤ x := fun x hx => h x (List.mem_cons_of_mem d hx)
    have hone : s.fireTimer - d ≤ (Weapon.update d s).fireTimer := by
      unfold Weapon.update
      split
      · exact le_refl _
      · linarith
    have := ih (Weapon.update d s) hrest
    rw [List.sum_cons]
    linarith

/-- Both fire and update preserve non-negative finite ammo. -/
theorem Weapon.ammoNonneg_preserved (s : Weapon.WM) (hs : Weapon.ammoNonneg s) :
    Weapon.ammoNonneg (Weapon.fire s).2 ∧ ∀ d, Weapon.ammoNonneg (Weapon.update d s) := by
  constructor
  · by_cases hf : (Weapon.fire s).1 = true
    · have hcf : Weapon.canFire s = true := by
        by_contra hc
        have hff := ((Weapon.fire_fails s).1).mpr (Weapon.bool_not_true hc)
        rw [hff] at hf
        exact Bool.noConfusion hf
      cases hid : s.equippedWeaponId with
      | none =>
        exfalso
        have hfalse : Weapon.canFire s = false :=
          (Weapon.canFire_false_iff s).mpr (Or.inl (Weapon.currentWeapon_none s hid))
        rw [hfalse] at hcf
        exact Bool.noConfusion hcf
      | some id =>
        have hce := Weapon.currentWeapon_eq s id hid
        cases hcw2 : Weapon.wlookup id s.weapons with
        | none =>
          exfalso
          have hfalse : Weapon.canFire s = false :=
            (Weapon.canFire_false_iff s).mpr (Or.inl (hce.trans hcw2))
          rw [hfalse] at hcf
          exact Bool.noConfusion hcf
        | some w =>
          have hcw : Weapon.currentWeapon s = some w := hce.trans hcw2
          have hfeq : Weapon.fire s
              = (true, { s with
                  fireTimer := w.cooldown,
                  weapons := Weapon.wupdate id
                    { w with ammoCurrent := Weapon.ammoDec w.ammoCurrent } s.weapons }) := by
            unfold Weapon.fire
            rw [if_neg (by simp [hcf]), hid, hcw]
          rw [hfeq]
          intro p hp a hpa
          rcases Weapon.mem_wupdate id _ s.weapons p hp with h1 | h1
          · rw [h1] at hpa
            dsimp only at hpa
            cases ha : w.ammoCurrent with
            | none =>
              rw [ha] at hpa
              exact Option.noConfusion hpa
            | some b =>
              rw [ha] at hpa
              unfold Weapon.ammoDec at hpa
              have hb : b - 1 = a := Option.some_inj.mp hpa
              have hbpos : ¬ b ≤ 0 := by
                intro hb0
                have hfalse : Weapon.canFire s = false :=
                  (Weapon.canFire_false_iff s).mpr (Or.inr (Or.inr ⟨w, b, hcw, ha, hb0⟩))
                rw [hfalse] at hcf
                exact Bool.noConfusion hcf
              omega
          · exact hs p h1 a hpa
    · rw [(Weapon.fire_fails s).2 (Weapon.bool_not_true hf)]
      exact hs
  · intro d
    have hfld := (Weapon.update_fields d s).1
    intro p hp a hpa
    rw [hfld] at hp
    exact hs p hp a hpa

/-- C6: fire() returns false exactly when no weapon is equipped, the
cooldown has not elapsed, or ammo is finite and exhausted (changing
nothing then); on success it resets the cooldown timer to the weapon's
cooldown and decrements finite ammo — so after a success, any run of
update(dt) calls totalling less than the cooldown leaves fire() failing
(at most one success per cooldown window), and ammo never becomes
negative. -/
theorem c6_fire (s : Weapon.WM) (dts : List ℚ) :
    ((Weapon.fire s).1 = false ↔
      (Weapon.currentWeapon s = none ∨ 0 < s.fireTimer
        ∨ ∃ w a, Weapon.currentWeapon s = some w ∧ w.ammoCurrent = some a ∧ a ≤ 0))
    ∧ ((Weapon.fire s).1 = false → (Weapon.fire s).2 = s)
    ∧ (∀ w, (Weapon.fire s).1 = true → Weapon.currentWeapon s = some w →
        (Weapon.fire s).2.fireTimer = w.cooldown
        ∧ Weapon.currentWeapon (Weapon.fire s).2
            = some { w with ammoCurrent := Weapon.ammoDec w.ammoCurrent })
    ∧ ((Weapon.fire s).1 = true → (∀ d ∈ dts, 0 ≤ d) →
        (∀ w, Weapon.currentWeapon s = some w → dts.sum < w.cooldown) →
        (Weapon.fire (Weapon.applyUpdates dts (Weapon.fire s).2)).1 = false)
    ∧ (Weapon.ammoNonneg s →
        Weapon.ammoNonneg (Weapon.fire s).2
        ∧ ∀ d, Weapon.ammoNonneg (Weapon.update d s)) := by
  refine ⟨?_, (Weapon.fire_fails s).2, ?_, ?_, Weapon.ammoNonneg_preserved s⟩
  · rw [(Weapon.fire_fails s).1, Weapon.canFire_false_iff]
  · intro w hf hcw
    have h := Weapon.fire_success s w hf hcw
    exact ⟨h.1, h.2.2⟩
  · intro hf hd hsum
    obtain ⟨w, hcw⟩ : ∃ w, Weapon.currentWeapon s = some w := by
      cases hcw : Weapon.currentWeapon s with
      | none =>
        exfalso
        have hfalse := (Weapon.canFire_false_iff s).mpr (Or.inl hcw)
        have hff := ((Weapon.fire_fails s).1).mpr hfalse
        rw [hff] at hf
        exact Bool.noConfusion hf
      | some w => exact ⟨w, rfl⟩
    have hsucc := Weapon.fire_success s w hf hcw
    have hsum2 : dts.sum < w.cooldown := hsum w hcw
    have htimer : 0 < (Weapon.applyUpdates dts (Weapon.fire s).2).fireTimer := by
      have hbound := Weapon.applyUpdates_fireTimer dts (Weapon.fire s).2 hd
      rw [hsucc.1] at hbound
      linarith
    have hfalse : Weapon.canFire (Weapon.applyUpdates dts (Weapon.fire s).2) = false :=
      (Weapon.canFire_false_iff _).mpr (Or.inr (Or.inl htimer))
    exact ((Weapon.fire_fails _).1).mpr hfalse

/-- C6 witness: firing the default manager (pistol, 0.3 s cooldown)
succeeds, then a 0.01 s update leaves fire() failing, and ammo stays
non-negative. -/
theorem c6_witness :
    (Weapon.fire Weapon.defaultWM).1 = true
    ∧ (Weapon.fire (Weapon.applyUpdates [1/100] (Weapon.fire Weapon.defaultWM).2)).1 = false
    ∧ Weapon.ammoNonneg (Weapon.fire Weapon.defaultWM).2 := by
  have h := c6_fire Weapon.defaultWM [1/100]
  have hnn : Weapon.ammoNonneg Weapon.defaultWM := by
    intro p hp a hpa
    rcases List.mem_cons.mp hp with h1 | h2
    · rw [h1] at hpa
      exact absurd hpa (by simp [Weapon.pistol])
    · rcases List.mem_cons.mp h2 with h3 | h4
      · rw [h3] at hpa
        simp [Weapon.rifle] at hpa
        omega
      · simp at h4
  refine ⟨rfl, ?_, (h.2.2.2.2 hnn).1⟩
  refine h.2.2.2.1 rfl ?_ ?_
  · intro d hd
    rcases List.mem_cons.mp hd with h1 | h1
    · rw [h1]; norm_num
    · simp at h1
  · intro w hw
    have hcw : Weapon.currentWeapon Weapon.defaultWM = some Weapon.pistol := rfl
    rw [hcw] at hw
    rw [← Option.some_inj.mp hw]
    norm_num [Weapon.pistol]

/-- C2: acquiring from an id that is not a registered pool is a fatal
TypeError (the `pool.length` read on `undefined`), not a recoverable
"not available" result — while a registered-but-empty pool (whose
constructor path is commented out) does return null and the spawns skip
that tick. -/
theorem c2_unregistered_pool_crashes :
    Engine.getObjectFromPool "damageNumbers" Engine.initialEngine
      = Except.error (Engine.JsError.typeError
          "Cannot read properties of undefined (reading length)")
    ∧ Engine.getObjectFromPool "enemies" Engine.initialEngine
        = Except.ok (none, Engine.initialEngine)
    ∧ Engine.spawnEnemy Engine.initialEngine = Except.ok Engine.initialEngine
    ∧ Engine.spawnBullet Engine.initialEngine = Except.ok Engine.initialEngine
    ∧ Engine.spawnPowerUp 0 Engine.initialEngine = Except.ok Engine.initialEngine := by
  exact ⟨rfl, rfl, rfl, rfl, rfl⟩

/-- Looking a pool up after setting it returns the new value, if the key
was registered. -/
theorem Engine.plookup_pset_self (k : String) (v l : List Engine.Entity)
    (P : List (String × List Engine.Entity)) (h : Engine.plookup k P = some l) :
    Engine.plookup k (Engine.pset k v P) = some v := by
  induction P with
  | nil => simp [Engine.plookup] at h
  | cons p rest ih =>
    obtain ⟨a, b⟩ := p
    unfold Engine.plookup at h
    unfold Engine.pset
    by_cases hk : a = k
    · rw [if_pos hk]
      unfold Engine.plookup
      rw [if_pos hk]
    · rw [if_neg hk]
      unfold Engine.plookup
      rw [if_neg hk]
      rw [if_neg hk] at h
      exact ih h

/-- Setting one pool leaves every other key's lookup unchanged. -/
theorem Engine.plookup_pset_other (k q : String) (v : List Engine.Entity)
    (P : List (String × List Engine.Entity)) (hne : q ≠ k) :
    Engine.plookup q (Engine.pset k v P) = Engine.plookup q P := by
  induction P with
  | nil => rfl
  | cons p rest ih =>
    obtain ⟨a, b⟩ := p
    unfold Engine.pset
    by_cases hk : a = k
    · rw [if_pos hk]
      unfold Engine.plookup
      rw [if_neg (by rw [hk]; exact fun hh => hne hh.symm), if_neg (by rw [hk]; exact fun hh => hne hh.symm)]
    · rw [if_neg hk]
      unfold Engine.plookup
      by_cases hq : a = q
      · rw [if_pos hq, if_pos hq]
      · rw [if_neg hq, if_neg hq]
        exact ih

/-- Setting a pool twice keeps only the second value. -/
theorem Engine.pset_pset (k : String) (v1 v2 : List Engine.Entity)
    (P : List (String × List Engine.Entity)) :
    Engine.pset k v2 (Engine.pset k v1 P) = Engine.pset k v2 P := by
  induction P with
  | nil => rfl
  | cons p rest ih =>
    obtain ⟨a, b⟩ := p
    by_cases hk : a = k
    · simp [Engine.pset, hk]
    · simp [Engine.pset, hk, ih]

/-- Setting a pool to the value it already holds changes nothing. -/
theorem Engine.pset_eq_of_lookup (k : String) (v : List Engine.Entity)
    (P : List (String × List Engine.Entity)) (h : Engine.plookup k P = some v) :
    Engine.pset k v P = P := by
  induction P with
  | nil => rfl
  | cons p rest ih =>
    obtain ⟨a, b⟩ := p
    unfold Engine.plookup at h
    by_cases hk : a = k
    · rw [if_pos hk] at h
      have hb : b = v := Option.some_inj.mp h
      simp [Engine.pset, hk, hb]
    · rw [if_neg hk] at h
      simp [Engine.pset, hk, ih h]

/-- returnObjectToPool touches only the named pool. -/
theorem Engine.returnObjectToPool_frame (e : Engine.Entity) (pn : String)
    (st : Engine.EngineS) :
    (Engine.returnObjectToPool e pn st).activeBullets = st.activeBullets
    ∧ (Engine.returnObjectToPool e pn st).activeEnemies = st.activeEnemies
    ∧ (Engine.returnObjectToPool e pn st).activePowerUps = st.activePowerUps
    ∧ (Engine.returnObjectToPool e pn st).activeEffects = st.activeEffects
    ∧ (Engine.returnObjectToPool e pn st).enemiesActive = st.enemiesActive
    ∧ (Engine.returnObjectToPool e pn st).score = st.score
    ∧ (∀ q, q ≠ pn →
        Engine.plookup q (Engine.returnObjectToPool e pn st).pools
          = Engine.plookup q st.pools) := by
  unfold Engine.returnObjectToPool
  cases hl : Engine.plookup pn st.pools with
  | none => exact ⟨rfl, rfl, rfl, rfl, rfl, rfl, fun q _ => rfl⟩
  | some pool =>
    refine ⟨rfl, rfl, rfl, rfl, rfl, rfl, fun q hq => ?_⟩
    exact Engine.plookup_pset_other pn q _ st.pools hq

/-- Releasing a batch stacks the release-marked instances, most recent
first, on top of the pool, touching nothing else. -/
theorem Engine.releaseAll_spec (pn : String) (es : List Engine.Entity)
    (st : Engine.EngineS) (l : List Engine.Entity)
    (h : Engine.plookup pn st.pools = some l) :
    Engine.plookup pn (Engine.releaseAll pn es st).pools
        = some ((es.map Engine.releasedMark).reverse ++ l)
    ∧ (Engine.releaseAll pn es st).activeBullets = st.activeBullets
    ∧ (Engine.releaseAll pn es st).activeEnemies = st.activeEnemies
    ∧ (Engine.releaseAll pn es st).activePowerUps = st.activePowerUps
    ∧ (Engine.releaseAll pn es st).activeEffects = st.activeEffects
    ∧ (∀ q, q ≠ pn →
        Engine.plookup q (Engine.releaseAll pn es st).pools
          = Engine.plookup q st.pools) := by
  induction es generalizing st l with
  | nil => exact ⟨by simpa using h, rfl, rfl, rfl, rfl, fun q _ => rfl⟩
  | cons e rest ih =>
    have hstep : Engine.releaseAll pn (e :: rest) st
        = Engine.releaseAll pn rest (Engine.returnObjectToPool e pn st) := rfl
    rw [hstep]
    have hret : Engine.returnObjectToPool e pn st
        = { st with pools := Engine.pset pn (Engine.releasedMark e :: l) st.pools } := by
      unfold Engine.returnObjectToPool
      rw [h]
    have hlook : Engine.plookup pn (Engine.returnObjectToPool e pn st).pools
        = some (Engine.releasedMark e :: l) := by
      rw [hret]
      exact Engine.plookup_pset_self pn _ l st.pools h
    have hmain := ih (Engine.returnObjectToPool e pn st) _ hlook
    have hfr := Engine.returnObjectToPool_frame e pn st
    refine ⟨?_, hmain.2.1.trans hfr.1, hmain.2.2.1.trans hfr.2.1,
      hmain.2.2.2.1.trans hfr.2.2.1, hmain.2.2.2.2.1.trans hfr.2.2.2.1,
      fun q hq => (hmain.2.2.2.2.2 q hq).trans (hfr.2.2.2.2.2.2 q hq)⟩
    rw [hmain.1]
    simp [List.append_assoc]

/-- Acquiring as many times as there are stacked instances pops exactly
those instances in stack order, acquire-marked, leaving the rest. -/
theorem Engine.acquireSeq_drain (pn : String) (xs : List Engine.Entity)
    (l : List Engine.Entity) (st : Engine.EngineS)
    (h : Engine.plookup pn st.pools = some (xs ++ l)) :
    Engine.acquireSeq pn xs.length st
      = Except.ok (xs.map (fun e => some (Engine.acquiredMark e)),
          { st with pools := Engine.pset pn l st.pools }) := by
  induction xs generalizing st with
  | nil =>
    have hps : Engine.pset pn l st.pools = st.pools :=
      Engine.pset_eq_of_lookup pn l st.pools (by simpa using h)
    rw [hps]
    rfl
  | cons x rest ih =>
    have hget : Engine.getObjectFromPool pn st
        = Except.ok (some (Engine.acquiredMark x),
            { st with pools := Engine.pset pn (rest ++ l) st.pools }) := by
      unfold Engine.getObjectFromPool
      rw [h]
      rfl
    have hlook2 : Engine.plookup pn
        ({ st with pools := Engine.pset pn (rest ++ l) st.pools } : Engine.EngineS).pools
        = some (rest ++ l) :=
      Engine.plookup_pset_self pn _ _ st.pools h
    have hrec := ih _ hlook2
    show Engine.acquireSeq pn (rest.length + 1) st = _
    unfold Engine.acquireSeq
    rw [hget]
    dsimp only
    rw [hrec]
    dsimp only
    rw [Engine.pset_pset]
    rfl

/-- C5: the free-list is LIFO — releasing N instances into a registered
pool and then acquiring N times returns exactly those N instances (with
their lifecycle flags cycled destroyed-then-reactivated) in reverse
release order, with no new allocation: every acquire is satisfied from
the pool and the pool ends exactly as it began. -/
theorem c5_pool_lifo (st : Engine.EngineS) (pn : String) (l es : List Engine.Entity)
    (h : Engine.plookup pn st.pools = some l) :
    ∃ stF, Engine.acquireSeq pn es.length (Engine.releaseAll pn es st)
        = Except.ok (es.reverse.map (fun e => some (Engine.roundTripMark e)), stF)
      ∧ Engine.plookup pn stF.pools = some l
      ∧ (∀ q, q ≠ pn → Engine.plookup q stF.pools = Engine.plookup q st.pools)
      ∧ stF.activeBullets = st.activeBullets
      ∧ stF.activeEnemies = st.activeEnemies
      ∧ stF.activePowerUps = st.activePowerUps
      ∧ stF.activeEffects = st.activeEffects := by
  have hrel := Engine.releaseAll_spec pn es st l h
  have hdrain := Engine.acquireSeq_drain pn ((es.map Engine.releasedMark).reverse) l
    (Engine.releaseAll pn es st) hrel.1
  have hlen : ((es.map Engine.releasedMark).reverse).length = es.length := by simp
  rw [hlen] at hdrain
  have hlist : ((es.map Engine.releasedMark).reverse).map
        (fun e => some (Engine.acquiredMark e))
      = es.reverse.map (fun e => some (Engine.roundTripMark e)) := by
    rw [List.map_reverse, List.map_reverse, List.map_map]
    rfl
  rw [hlist] at hdrain
  refine ⟨_, hdrain, ?_, ?_, ?_, ?_, ?_, ?_⟩
  · exact Engine.plookup_pset_self pn l _ _ hrel.1
  · intro q hq
    exact (Engine.plookup_pset_other pn q l _ hq).trans (hrel.2.2.2.2.2 q hq)
  · exact hrel.2.1
  · exact hrel.2.2.1
  · exact hrel.2.2.2.1
  · exact hrel.2.2.2.2.1

/-- C5 witness: releasing a live and a dead bullet into the empty bullets
pool and acquiring twice hands them back in reverse order, pool restored. -/
theorem c5_witness :
    ∃ stF, Engine.acquireSeq "bullets"
        ([Engine.sampleLiveBullet, Engine.sampleDeadBullet].length)
        (Engine.releaseAll "bullets"
          [Engine.sampleLiveBullet, Engine.sampleDeadBullet] Engine.initialEngine)
        = Except.ok
            ([Engine.sampleLiveBullet, Engine.sampleDeadBullet].reverse.map
              (fun e => some (Engine.roundTripMark e)), stF)
      ∧ Engine.plookup "bullets" stF.pools = some []
      ∧ (∀ q, q ≠ "bullets" →
          Engine.plookup q stF.pools = Engine.plookup q Engine.initialEngine.pools)
      ∧ stF.activeBullets = Engine.initialEngine.activeBullets
      ∧ stF.activeEnemies = Engine.initialEngine.activeEnemies
      ∧ stF.activePowerUps = Engine.initialEngine.activePowerUps
      ∧ stF.activeEffects = Engine.initialEngine.activeEffects :=
  c5_pool_lifo Engine.initialEngine "bullets" []
    [Engine.sampleLiveBullet, Engine.sampleDeadBullet] rfl

/-- A release-marked instance is destroyed, and out of the scene as long
as meshless entities were not in the scene to begin with. -/
theorem Engine.releasedMark_flags (e : Engine.Entity)
    (h : e.hasMesh = false → e.inScene = false) :
    (Engine.releasedMark e).destroyed = true
    ∧ (Engine.releasedMark e).inScene = false := by
  unfold Engine.releasedMark Engine.sceneRemove
  by_cases hm : e.hasMesh = true
  · simp [hm]
  · simp only [hm, if_false]
    exact ⟨rfl, h (Weapon.bool_not_true hm)⟩

/-- An acquire-marked instance has its destroyed flag cleared. -/
theorem Engine.acquiredMark_destroyed (e : Engine.Entity) :
    (Engine.acquiredMark e).destroyed = false := by
  unfold Engine.acquiredMark Engine.sceneAdd
  by_cases hm : e.hasMesh = true
  · simp [hm]
  · simp [hm]

/-- Every pool of an updated pool table is the new list or an old pool. -/
theorem Engine.plookup_pset_cases (q k : String) (v m : List Engine.Entity)
    (P : List (String × List Engine.Entity))
    (h : Engine.plookup q (Engine.pset k v P) = some m) :
    m = v ∨ Engine.plookup q P = some m := by
  induction P with
  | nil => exact Or.inr (by simpa [Engine.pset] using h)
  | cons p rest ih =>
    obtain ⟨a, b⟩ := p
    unfold Engine.pset at h
    by_cases hk : a = k
    · rw [if_pos hk] at h
      unfold Engine.plookup at h
      by_cases hq : a = q
      · rw [if_pos hq] at h
        exact Or.inl (Option.some_inj.mp h).symm
      · rw [if_neg hq] at h
        right
        unfold Engine.plookup
        rw [if_neg hq]
        exact h
    · rw [if_neg hk] at h
      unfold Engine.plookup at h
      by_cases hq : a = q
      · rw [if_pos hq] at h
        right
        unfold Engine.plookup
        rw [if_pos hq]
        exact h
      · rw [if_neg hq] at h
        rcases ih h with h1 | h1
        · exact Or.inl h1
        · right
          unfold Engine.plookup
          rw [if_neg hq]
          exact h1

/-- returnObjectToPool keeps the pools clean when the released entity's
scene flag is consistent with its mesh. -/
theorem Engine.poolsClean_returnObjectToPool (obj : Engine.Entity) (pn : String)
    (st : Engine.EngineS) (hc : Engine.poolsClean st)
    (hobj : obj.hasMesh = false → obj.inScene = false) :
    Engine.poolsClean (Engine.returnObjectToPool obj pn st) := by
  unfold Engine.returnObjectToPool
  cases hl : Engine.plookup pn st.pools with
  | none => exact hc
  | some pool =>
    intro q m hm e he
    dsimp only at hm
    rcases Engine.plookup_pset_cases q pn _ m st.pools hm with h1 | h1
    · rw [h1] at he
      rcases List.mem_cons.mp he with h2 | h2
      · rw [h2]
        exact Engine.releasedMark_flags obj hobj
      · exact hc pn pool hl e h2
    · exact hc q m h1 e he

/-- A successful acquire keeps the pools clean. -/
theorem Engine.poolsClean_getObjectFromPool (pn : String) (st : Engine.EngineS)
    (o : Option Engine.Entity) (st2 : Engine.EngineS) (hc : Engine.poolsClean st)
    (h : Engine.getObjectFromPool pn st = Except.ok (o, st2)) :
    Engine.poolsClean st2 := by
  unfold Engine.getObjectFromPool at h
  cases hl : Engine.plookup pn st.pools with
  | none =>
    rw [hl] at h
    exact Except.noConfusion h
  | some pool =>
    rw [hl] at h
    cases pool with
    | nil =>
      have h2 : st2 = st := (congrArg Prod.snd (Except.ok.inj h)).symm
      rw [h2]
      exact hc
    | cons x rest =>
      have h2 : st2 = { st with pools := Engine.pset pn rest st.pools } :=
        (congrArg Prod.snd (Except.ok.inj h)).symm
      rw [h2]
      intro q m hm e he
      dsimp only at hm
      rcases Engine.plookup_pset_cases q pn _ m st.pools hm with h1 | h1
      · rw [h1] at he
        exact hc pn (x :: rest) hl e (List.mem_cons_of_mem x he)
      · exact hc q m h1 e he

/-- Every pool keeps its registration through a pool-table update. -/
theorem Engine.pset_isSome (q k : String) (v : List Engine.Entity)
    (P : List (String × List Engine.Entity))
    (h : ∃ m, Engine.plookup q P = some m) :
    ∃ m2, Engine.plookup q (Engine.pset k v P) = some m2 := by
  obtain ⟨m, hm⟩ := h
  by_cases hq : q = k
  · rw [hq] at hm ⊢
    exact ⟨v, Engine.plookup_pset_self k v m P hm⟩
  · exact ⟨m, (Engine.plookup_pset_other k q v P hq).trans hm⟩

/-- Pool-entity identities survive a push into any pool and are untouched
by pushes into other pools. -/
theorem Engine.poolIds_returnObjectToPool (obj : Engine.Entity) (pn q : String)
    (st : Engine.EngineS) (i : ℕ) (h : i ∈ Engine.poolIds q st) :
    i ∈ Engine.poolIds q (Engine.returnObjectToPool obj pn st) := by
  unfold Engine.returnObjectToPool
  cases hl : Engine.plookup pn st.pools with
  | none => exact h
  | some pool =>
    unfold Engine.poolIds at h ⊢
    dsimp only
    by_cases hq : q = pn
    · rw [hq] at h ⊢
      rw [Engine.plookup_pset_self pn _ pool st.pools hl]
      rw [hl] at h
      exact List.mem_cons_of_mem _ h
    · rw [Engine.plookup_pset_other pn q _ st.pools hq]
      exact h

/-- The destroyed-flag filter of the none-pool cleanup pass: effects are
filtered without any state change. -/
theorem Engine.cleanupList_none (l : List Engine.Entity) (st : Engine.EngineS) :
    Engine.cleanupList none l st = (l.filter (fun e => !e.destroyed), st) := by
  induction l generalizing st with
  | nil => rfl
  | cons e rest ih =>
    unfold Engine.cleanupList
    by_cases hd : e.destroyed = true
    · rw [if_pos hd]
      dsimp only
      rw [ih]
      simp [List.filter, hd]
    · rw [if_neg hd]
      rw [ih]
      simp [List.filter, Weapon.bool_not_true hd]

/-- sceneRemove only touches the scene flag, and not even that for a
meshless entity. -/
theorem Engine.sceneRemove_fields (e : Engine.Entity) :
    (Engine.sceneRemove e).eid = e.eid
    ∧ (Engine.sceneRemove e).hasMesh = e.hasMesh
    ∧ (Engine.sceneRemove e).destroyed = e.destroyed
    ∧ (e.hasMesh = false → (Engine.sceneRemove e).inScene = e.inScene) := by
  unfold Engine.sceneRemove
  by_cases hm : e.hasMesh = true
  · simp [hm]
  · simp [hm]

/-- releasedMark keeps the identity and the mesh flag. -/
theorem Engine.releasedMark_eid (e : Engine.Entity) :
    (Engine.releasedMark e).eid = e.eid := by
  unfold Engine.releasedMark Engine.sceneRemove
  by_cases hm : e.hasMesh = true
  · simp [hm]
  · simp [hm]

/-- Returning an instance to a registered pool records its identity on
top of that pool. -/
theorem Engine.returnObjectToPool_pushes (obj : Engine.Entity) (pn : String)
    (st : Engine.EngineS) (pool : List Engine.Entity)
    (h : Engine.plookup pn st.pools = some pool) :
    Engine.poolIds pn (Engine.returnObjectToPool obj pn st)
      = obj.eid :: Engine.poolIds pn st := by
  unfold Engine.returnObjectToPool
  rw [h]
  unfold Engine.poolIds
  dsimp only
  rw [Engine.plookup_pset_self pn _ pool st.pools h, h]
  dsimp only [List.map]
  rw [Engine.releasedMark_eid]

/-- returnObjectToPool keeps every pool registered. -/
theorem Engine.returnObjectToPool_isSome (obj : Engine.Entity) (pn q : String)
    (st : Engine.EngineS) (m : List Engine.Entity)
    (h : Engine.plookup q st.pools = some m) :
    ∃ m2, Engine.plookup q (Engine.returnObjectToPool obj pn st).pools = some m2 := by
  unfold Engine.returnObjectToPool
  cases hl : Engine.plookup pn st.pools with
  | none => exact ⟨m, h⟩
  | some pool =>
    dsimp only
    exact Engine.pset_isSome q pn _ st.pools ⟨m, h⟩

/-- The pooled cleanup pass: keeps exactly the live entities in order,
returns each destroyed one to the named pool (mesh out of the scene),
and touches nothing else of the engine. -/
theorem Engine.cleanupList_spec (pn : String) (l : List Engine.Entity)
    (st : Engine.EngineS) (hc : Engine.poolsClean st)
    (hm : ∀ e ∈ l, e.hasMesh = false → e.inScene = false) :
    (Engine.cleanupList (some pn) l st).1 = l.filter (fun e => !e.destroyed)
    ∧ (Engine.cleanupList (some pn) l st).2.activeBullets = st.activeBullets
    ∧ (Engine.cleanupList (some pn) l st).2.activeEnemies = st.activeEnemies
    ∧ (Engine.cleanupList (some pn) l st).2.activePowerUps = st.activePowerUps
    ∧ (Engine.cleanupList (some pn) l st).2.activeEffects = st.activeEffects
    ∧ (Engine.cleanupList (some pn) l st).2.enemiesActive = st.enemiesActive
    ∧ (Engine.cleanupList (some pn) l st).2.score = st.score
    ∧ Engine.poolsClean (Engine.cleanupList (some pn) l st).2
    ∧ (∀ q, q ≠ pn → Engine.plookup q (Engine.cleanupList (some pn) l st).2.pools
        = Engine.plookup q st.pools)
    ∧ (∀ q m, Engine.plookup q st.pools = some m →
        ∃ m2, Engine.plookup q (Engine.cleanupList (some pn) l st).2.pools = some m2)
    ∧ (∀ i q, i ∈ Engine.poolIds q st →
        i ∈ Engine.poolIds q (Engine.cleanupList (some pn) l st).2)
    ∧ (∀ m, Engine.plookup pn st.pools = some m →
        ∀ e ∈ l, e.destroyed = true →
          e.eid ∈ Engine.poolIds pn (Engine.cleanupList (some pn) l st).2) := by
  induction l generalizing st with
  | nil =>
    refine ⟨rfl, rfl, rfl, rfl, rfl, rfl, rfl, hc, fun q _ => rfl,
      fun q m h => ⟨m, h⟩, fun i q h => h, fun m _ e he => absurd he (List.not_mem_nil e)⟩
  | cons e rest ih =>
    by_cases hd : e.destroyed = true
    · have hstep : Engine.cleanupList (some pn) (e :: rest) st
          = Engine.cleanupList (some pn) rest
              (Engine.returnObjectToPool (Engine.sceneRemove e) pn st) := by
        conv_lhs => unfold Engine.cleanupList
        rw [if_pos hd]
      have hobj : (Engine.sceneRemove e).hasMesh = false →
          (Engine.sceneRemove e).inScene = false := by
        intro hmm
        have hf := Engine.sceneRemove_fields e
        rw [hf.2.1] at hmm
        rw [hf.2.2.2 hmm]
        exact hm e (List.mem_cons_self e rest) hmm
      have hc1 : Engine.poolsClean
          (Engine.returnObjectToPool (Engine.sceneRemove e) pn st) :=
        Engine.poolsClean_returnObjectToPool _ pn st hc hobj
      have hm1 : ∀ x ∈ rest, x.hasMesh = false → x.inScene = false :=
        fun x hx => hm x (List.mem_cons_of_mem e hx)
      have H := ih (Engine.returnObjectToPool (Engine.sceneRemove e) pn st) hc1 hm1
      have hfr := Engine.returnObjectToPool_frame (Engine.sceneRemove e) pn st
      rw [hstep]
      refine ⟨?_, H.2.1.trans hfr.1, H.2.2.1.trans hfr.2.1,
        H.2.2.2.1.trans hfr.2.2.1, H.2.2.2.2.1.trans hfr.2.2.2.1,
        H.2.2.2.2.2.1.trans hfr.2.2.2.2.1, H.2.2.2.2.2.2.1.trans hfr.2.2.2.2.2.1,
        H.2.2.2.2.2.2.2.1, ?_, ?_, ?_, ?_⟩
      · rw [H.1]
        simp [List.filter, hd]
      · intro q hq
        exact (H.2.2.2.2.2.2.2.2.1 q hq).trans (hfr.2.2.2.2.2.2 q hq)
      · intro q m hqm
        obtain ⟨m1, hm1q⟩ :=
          Engine.returnObjectToPool_isSome (Engine.sceneRemove e) pn q st m hqm
        exact H.2.2.2.2.2.2.2.2.2.1 q m1 hm1q
      · intro i q hi
        exact H.2.2.2.2.2.2.2.2.2.2.1 i q
          (Engine.poolIds_returnObjectToPool (Engine.sceneRemove e) pn q st i hi)
      · intro m hreg x hx hxd
        rcases List.mem_cons.mp hx with h1 | h1
        · rw [h1]
          have hpush := Engine.returnObjectToPool_pushes
            (Engine.sceneRemove e) pn st m hreg
          have heid : (Engine.sceneRemove e).eid = e.eid :=
            (Engine.sceneRemove_fields e).1
          have hin : e.eid ∈ Engine.poolIds pn
              (Engine.returnObjectToPool (Engine.sceneRemove e) pn st) := by
            rw [hpush, heid]
            exact List.mem_cons_self _ _
          exact H.2.2.2.2.2.2.2.2.2.2.1 e.eid pn hin
        · obtain ⟨m1, hm1q⟩ :=
            Engine.returnObjectToPool_isSome (Engine.sceneRemove e) pn pn st m hreg
          exact H.2.2.2.2.2.2.2.2.2.2.2 m1 hm1q x h1 hxd
    · rcases hsplit : Engine.cleanupList (some pn) rest st with ⟨kept, st2⟩
      have hstep : Engine.cleanupList (some pn) (e :: rest) st = (e :: kept, st2) := by
        conv_lhs => unfold Engine.cleanupList
        rw [if_neg hd, hsplit]
      have hm1 : ∀ x ∈ rest, x.hasMesh = false → x.inScene = false :=
        fun x hx => hm x (List.mem_cons_of_mem e hx)
      have H := ih st hc hm1
      rw [hsplit] at H
      rw [hstep]
      refine ⟨?_, H.2.1, H.2.2.1, H.2.2.2.1, H.2.2.2.2.1, H.2.2.2.2.2.1,
        H.2.2.2.2.2.2.1, H.2.2.2.2.2.2.2.1, H.2.2.2.2.2.2.2.2.1,
        H.2.2.2.2.2.2.2.2.2.1, H.2.2.2.2.2.2.2.2.2.2.1, ?_⟩
      · dsimp only
        have h1 : kept = List.filter (fun e => !e.destroyed) rest := H.1
        rw [h1]
        simp [List.filter, Weapon.bool_not_true hd]
      · intro m hreg x hx hxd
        rcases List.mem_cons.mp hx with h1 | h1
        · rw [h1] at hxd
          exact absurd hxd hd
        · exact H.2.2.2.2.2.2.2.2.2.2.2 m hreg x h1 hxd

/-- Spawning a power-up from a registered pool never faults: it either
pops a pooled instance (re-activated, destroyed flag cleared) onto the
active power-up list or, on an empty pool, skips the spawn; it keeps the
pools clean and touches no other engine field. -/
theorem Engine.spawnPowerUp_spec (r : ℚ) (st : Engine.EngineS)
    (hc : Engine.poolsClean st) (pl : List Engine.Entity)
    (hreg : Engine.plookup "powerUps" st.pools = some pl) :
    ∃ st2, Engine.spawnPowerUp r st = Except.ok st2
      ∧ Engine.poolsClean st2
      ∧ st2.activeBullets = st.activeBullets
      ∧ st2.activeEnemies = st.activeEnemies
      ∧ st2.activeEffects = st.activeEffects
      ∧ (∀ e ∈ st2.activePowerUps, e ∈ st.activePowerUps ∨ e.destroyed = false)
      ∧ (∀ q, q ≠ "powerUps" →
          Engine.plookup q st2.pools = Engine.plookup q st.pools)
      ∧ (∃ pl2, Engine.plookup "powerUps" st2.pools = some pl2) := by
  unfold Engine.spawnPowerUp Engine.getObjectFromPool
  rw [hreg]
  cases pl with
  | nil =>
    dsimp only
    exact ⟨st, rfl, hc, rfl, rfl, rfl, fun e he => Or.inl he, fun q _ => rfl, ⟨[], hreg⟩⟩
  | cons x rest =>
    dsimp only
    refine ⟨_, rfl, ?_, rfl, rfl, rfl, ?_, ?_, ?_⟩
    · intro q m hmq e he
      dsimp only at hmq
      rcases Engine.plookup_pset_cases q "powerUps" _ m st.pools hmq with h1 | h1
      · rw [h1] at he
        exact hc "powerUps" (x :: rest) hreg e (List.mem_cons_of_mem x he)
      · exact hc q m h1 e he
    · intro e he
      dsimp only at he
      rcases List.mem_append.mp he with h1 | h1
      · exact Or.inl h1
      · right
        have hx : e = Engine.acquiredMark x := List.mem_singleton.mp h1
        rw [hx]
        exact Engine.acquiredMark_destroyed x
    · intro q hq
      dsimp only
      exact Engine.plookup_pset_other _ q _ st.pools hq
    · exact Engine.pset_isSome "powerUps" "powerUps" rest st.pools ⟨_, hreg⟩

/-- One step of the enemy cleanup pass: with the power-ups pool
registered and the enemy owning a mesh, the step never faults; a live
enemy is kept with the state untouched, a destroyed one is dropped from
the list and returned to the enemies pool, possibly reviving a pooled
power-up as a drop. -/
theorem Engine.cleanupEnemyStep_spec (e : Engine.Entity) (st : Engine.EngineS)
    (rng : List ℚ) (hc : Engine.poolsClean st) (pl : List Engine.Entity)
    (hregP : Engine.plookup "powerUps" st.pools = some pl)
    (hmesh : e.hasMesh = true) :
    ∃ kp st2 rng2, Engine.cleanupEnemyStep e st rng = Except.ok (kp, st2, rng2)
      ∧ Engine.poolsClean st2
      ∧ st2.activeBullets = st.activeBullets
      ∧ st2.activeEffects = st.activeEffects
      ∧ st2.activeEnemies = st.activeEnemies
      ∧ (∀ x ∈ st2.activePowerUps, x ∈ st.activePowerUps ∨ x.destroyed = false)
      ∧ (∀ q, q ≠ "powerUps" → q ≠ "enemies" →
          Engine.plookup q st2.pools = Engine.plookup q st.pools)
      ∧ (∃ pl2, Engine.plookup "powerUps" st2.pools = some pl2)
      ∧ (∀ i, i ∈ Engine.poolIds "enemies" st → i ∈ Engine.poolIds "enemies" st2)
      ∧ (∀ m, Engine.plookup "enemies" st.pools = some m →
          ∃ m2, Engine.plookup "enemies" st2.pools = some m2)
      ∧ (e.destroyed = true → kp = none
          ∧ (∀ m, Engine.plookup "enemies" st.pools = some m →
              e.eid ∈ Engine.poolIds "enemies" st2))
      ∧ (e.destroyed = false → kp = some e ∧ st2 = st ∧ rng2 = rng) := by
  have hobj : (Engine.sceneRemove e).hasMesh = false →
      (Engine.sceneRemove e).inScene = false := by
    intro hmm
    rw [(Engine.sceneRemove_fields e).2.1, hmesh] at hmm
    exact Bool.noConfusion hmm
  by_cases hd : e.destroyed = true
  · rcases hrn : Engine.rngNext rng with ⟨r, rng2⟩
    by_cases hdrop : r < jsNullish e.dropChance (5/100)
    · rcases hrn2 : Engine.rngNext rng2 with ⟨r2, rng3⟩
      have hc3 : Engine.poolsClean (Engine.updateScore e.score
          { st with enemiesActive := st.enemiesActive - 1 }) := hc
      have hreg3 : Engine.plookup "powerUps" (Engine.updateScore e.score
          { st with enemiesActive := st.enemiesActive - 1 }).pools = some pl := hregP
      obtain ⟨st4, hok, hcl4, hb4, he4, hf4, hpu4, hoth4, hregP4⟩ :=
        Engine.spawnPowerUp_spec r2 (Engine.updateScore e.score
          { st with enemiesActive := st.enemiesActive - 1 }) hc3 pl hreg3
      have hstep : Engine.cleanupEnemyStep e st rng
          = Except.ok (none,
              Engine.returnObjectToPool (Engine.sceneRemove e) "enemies" st4, rng3) := by
        unfold Engine.cleanupEnemyStep
        rw [if_pos hd]
        dsimp only
        rw [hrn]
        dsimp only
        rw [if_pos hdrop, if_pos hmesh]
        try dsimp only
        rw [hrn2]
        try dsimp only
        rw [hok]
      have hen4 : Engine.plookup "enemies" st4.pools = Engine.plookup "enemies" st.pools :=
        hoth4 "enemies" (by decide)
      have hids4 : Engine.poolIds "enemies" st4 = Engine.poolIds "enemies" st := by
        unfold Engine.poolIds
        rw [hen4]
      have hfr := Engine.returnObjectToPool_frame (Engine.sceneRemove e) "enemies" st4
      refine ⟨none, _, rng3, hstep,
        Engine.poolsClean_returnObjectToPool _ "enemies" st4 hcl4 hobj,
        hfr.1.trans hb4, hfr.2.2.2.1.trans hf4, hfr.2.1.trans he4, ?_, ?_, ?_, ?_, ?_, ?_,
        fun hdd => absurd hd (by rw [hdd]; exact fun hh => Bool.noConfusion hh)⟩
      · intro x hx
        rw [hfr.2.2.1] at hx
        exact hpu4 x hx
      · intro q hqp hqe
        exact ((hfr.2.2.2.2.2.2 q hqe).trans (hoth4 q hqp))
      · obtain ⟨pl2, hpl2⟩ := hregP4
        exact Engine.returnObjectToPool_isSome _ "enemies" "powerUps" st4 pl2 hpl2
      · intro i hi
        rw [← hids4] at hi
        exact Engine.poolIds_returnObjectToPool _ "enemies" "enemies" st4 i hi
      · intro m hmem
        exact Engine.returnObjectToPool_isSome _ "enemies" "enemies" st4 m
          (hen4.trans hmem)
      · intro _
        refine ⟨rfl, ?_⟩
        intro m hmem
        have hpush := Engine.returnObjectToPool_pushes (Engine.sceneRemove e)
          "enemies" st4 m (hen4.trans hmem)
        rw [hpush, (Engine.sceneRemove_fields e).1]
        exact List.mem_cons_self _ _
    · have hstep : Engine.cleanupEnemyStep e st rng
          = Except.ok (none,
              Engine.returnObjectToPool (Engine.sceneRemove e) "enemies"
                (Engine.updateScore e.score
                  { st with enemiesActive := st.enemiesActive - 1 }), rng2) := by
        unfold Engine.cleanupEnemyStep
        rw [if_pos hd]
        dsimp only
        rw [hrn]
        dsimp only
        rw [if_neg hdrop]
      have hc3 : Engine.poolsClean (Engine.updateScore e.score
          { st with enemiesActive := st.enemiesActive - 1 }) := hc
      have hfr := Engine.returnObjectToPool_frame (Engine.sceneRemove e) "enemies"
        (Engine.updateScore e.score { st with enemiesActive := st.enemiesActive - 1 })
      have hregP3 : Engine.plookup "powerUps" (Engine.updateScore e.score
          { st with enemiesActive := st.enemiesActive - 1 }).pools = some pl := hregP
      refine ⟨none, _, rng2, hstep,
        Engine.poolsClean_returnObjectToPool _ "enemies" _ hc3 hobj,
        hfr.1, hfr.2.2.2.1, hfr.2.1, ?_, ?_, ?_, ?_, ?_, ?_,
        fun hdd => absurd hd (by rw [hdd]; exact fun hh => Bool.noConfusion hh)⟩
      · intro x hx
        rw [hfr.2.2.1] at hx
        exact Or.inl hx
      · intro q hqp hqe
        exact hfr.2.2.2.2.2.2 q hqe
      · exact Engine.returnObjectToPool_isSome _ "enemies" "powerUps"
          (Engine.updateScore e.score { st with enemiesActive := st.enemiesActive - 1 })
          pl hregP3
      · intro i hi
        have hi2 : i ∈ Engine.poolIds "enemies" (Engine.updateScore e.score
            { st with enemiesActive := st.enemiesActive - 1 }) := hi
        exact Engine.poolIds_returnObjectToPool _ "enemies" "enemies" _ i hi2
      · intro m hmem
        have hmem2 : Engine.plookup "enemies" (Engine.updateScore e.score
            { st with enemiesActive := st.enemiesActive - 1 }).pools = some m := hmem
        exact Engine.returnObjectToPool_isSome _ "enemies" "enemies" _ m hmem2
      · intro _
        refine ⟨rfl, ?_⟩
        intro m hmem
        have hmem2 : Engine.plookup "enemies" (Engine.updateScore e.score
            { st with enemiesActive := st.enemiesActive - 1 }).pools = some m := hmem
        have hpush := Engine.returnObjectToPool_pushes (Engine.sceneRemove e)
          "enemies" _ m hmem2
        rw [hpush, (Engine.sceneRemove_fields e).1]
        exact List.mem_cons_self _ _
  · have hstep : Engine.cleanupEnemyStep e st rng = Except.ok (some e, st, rng) := by
      unfold Engine.cleanupEnemyStep
      rw [if_neg hd]
    exact ⟨some e, st, rng, hstep, hc, rfl, rfl, rfl, fun x hx => Or.inl hx,
      fun q _ _ => rfl, ⟨pl, hregP⟩, fun i hi => hi, fun m hm2 => ⟨m, hm2⟩,
      fun hdd => absurd hdd hd, fun _ => ⟨rfl, rfl, rfl⟩⟩

/-- The enemy cleanup pass: never faults when the power-ups pool is
registered and every enemy owns a mesh; it keeps exactly the live
enemies in order, returns every destroyed one to the enemies pool, adds
only re-activated instances to the power-up list, and leaves the other
engine fields and pools alone. -/
theorem Engine.cleanupEnemies_spec (l : List Engine.Entity) (st : Engine.EngineS)
    (rng : List ℚ) (hc : Engine.poolsClean st) (pl : List Engine.Entity)
    (hregP : Engine.plookup "powerUps" st.pools = some pl)
    (hmesh : ∀ e ∈ l, e.hasMesh = true) :
    ∃ kept st2 rng2, Engine.cleanupEnemies l st rng = Except.ok (kept, st2, rng2)
      ∧ kept = l.filter (fun e => !e.destroyed)
      ∧ Engine.poolsClean st2
      ∧ st2.activeBullets = st.activeBullets
      ∧ st2.activeEffects = st.activeEffects
      ∧ st2.activeEnemies = st.activeEnemies
      ∧ (∀ x ∈ st2.activePowerUps, x ∈ st.activePowerUps ∨ x.destroyed = false)
      ∧ (∀ q, q ≠ "powerUps" → q ≠ "enemies" →
          Engine.plookup q st2.pools = Engine.plookup q st.pools)
      ∧ (∀ i, i ∈ Engine.poolIds "enemies" st → i ∈ Engine.poolIds "enemies" st2)
      ∧ (∀ m, Engine.plookup "enemies" st.pools = some m →
          ∀ e ∈ l, e.destroyed = true → e.eid ∈ Engine.poolIds "enemies" st2) := by
  induction l generalizing st rng pl with
  | nil =>
    exact ⟨[], st, rng, rfl, rfl, hc, rfl, rfl, rfl, fun x hx => Or.inl hx,
      fun q _ _ => rfl, fun i hi => hi,
      fun m _ e he => absurd he (List.not_mem_nil e)⟩
  | cons e rest ih =>
    obtain ⟨kp, st1, rng1, hstep, hc1, hb1, hf1, he1, hpu1, hoth1, hregP1,
      hmono1, hregE1, hdead1, hlive1⟩ :=
      Engine.cleanupEnemyStep_spec e st rng hc pl hregP
        (hmesh e (List.mem_cons_self e rest))
    obtain ⟨pl1, hpl1⟩ := hregP1
    obtain ⟨kept2, st2, rng2, hrec, hkept2, hc2, hb2, hf2, he2, hpu2, hoth2,
      hmono2, hmem2⟩ :=
      ih st1 rng1 hc1 pl1 hpl1 (fun x hx => hmesh x (List.mem_cons_of_mem e hx))
    by_cases hd : e.destroyed = true
    · obtain ⟨hkp, hdeadmem⟩ := hdead1 hd
      have hsteps : Engine.cleanupEnemies (e :: rest) st rng
          = Except.ok (kept2, st2, rng2) := by
        conv_lhs => unfold Engine.cleanupEnemies
        rw [hstep]
        dsimp only
        rw [hrec]
        dsimp only
        rw [hkp]
      refine ⟨kept2, st2, rng2, hsteps, ?_, hc2, hb2.trans hb1, hf2.trans hf1,
        he2.trans he1, ?_, ?_, ?_, ?_⟩
      · rw [hkept2]
        simp [List.filter, hd]
      · intro x hx
        rcases hpu2 x hx with h1 | h1
        · exact hpu1 x h1
        · exact Or.inr h1
      · intro q hqp hqe
        exact (hoth2 q hqp hqe).trans (hoth1 q hqp hqe)
      · intro i hi
        exact hmono2 i (hmono1 i hi)
      · intro m hmem x hx hxd
        rcases List.mem_cons.mp hx with h1 | h1
        · rw [h1]
          exact hmono2 e.eid (hdeadmem m hmem)
        · obtain ⟨m1, hm1⟩ := hregE1 m hmem
          exact hmem2 m1 hm1 x h1 hxd
    · obtain ⟨hkp, hst1, hrng1⟩ := hlive1 (Weapon.bool_not_true hd)
      have hsteps : Engine.cleanupEnemies (e :: rest) st rng
          = Except.ok (e :: kept2, st2, rng2) := by
        conv_lhs => unfold Engine.cleanupEnemies
        rw [hstep]
        dsimp only
        rw [hrec]
        dsimp only
        rw [hkp]
      refine ⟨e :: kept2, st2, rng2, hsteps, ?_, hc2, hb2.trans hb1, hf2.trans hf1,
        he2.trans he1, ?_, ?_, ?_, ?_⟩
      · rw [hkept2]
        simp [List.filter, Weapon.bool_not_true hd]
      · intro x hx
        rcases hpu2 x hx with h1 | h1
        · exact hpu1 x h1
        · exact Or.inr h1
      · intro q hqp hqe
        exact (hoth2 q hqp hqe).trans (hoth1 q hqp hqe)
      · intro i hi
        exact hmono2 i (hmono1 i hi)
      · intro m hmem x hx hxd
        rcases List.mem_cons.mp hx with h1 | h1
        · rw [h1] at hxd
          exact absurd hxd hd
        · obtain ⟨m1, hm1⟩ := hregE1 m hmem
          exact hmem2 m1 hm1 x h1 hxd

/-- C7: after a cleanup pass on a well-formed engine state (pools
registered and holding only deactivated instances, meshless active
entities not in the scene, every enemy owning a mesh), every entity left
in an active list is live, every pooled instance is destroyed with its
mesh out of the scene — destroyed entities are in no active list and not
in the world — and the destroyed bullets and enemies of the pass have
been returned to their pools. -/
theorem c7_cleanup_invariant (rng : List ℚ) (st : Engine.EngineS)
    (hc : Engine.poolsClean st)
    (hmeshless : ∀ e ∈ Engine.allActive st, e.hasMesh = false → e.inScene = false)
    (henemymesh : ∀ e ∈ st.activeEnemies, e.hasMesh = true)
    (bl : List Engine.Entity) (hregB : Engine.plookup "bullets" st.pools = some bl)
    (pl : List Engine.Entity) (hregP : Engine.plookup "powerUps" st.pools = some pl)
    (el : List Engine.Entity) (hregE : Engine.plookup "enemies" st.pools = some el) :
    ∃ st2, Engine.cleanupEntities rng st = Except.ok st2
      ∧ (∀ e ∈ Engine.allActive st2, e.destroyed = false)
      ∧ Engine.poolsClean st2
      ∧ (∀ e ∈ st.activeBullets, e.destroyed = true →
          e.eid ∈ Engine.poolIds "bullets" st2)
      ∧ (∀ e ∈ st.activeEnemies, e.destroyed = true →
          e.eid ∈ Engine.poolIds "enemies" st2) := by
  have hmB : ∀ e ∈ st.activeBullets, e.hasMesh = false → e.inScene = false :=
    fun e he => hmeshless e (by
      unfold Engine.allActive
      exact List.mem_append.mpr (Or.inl (List.mem_append.mpr (Or.inl
        (List.mem_append.mpr (Or.inl he))))))
  have H1 := Engine.cleanupList_spec "bullets" st.activeBullets st hc hmB
  rcases hA : Engine.cleanupList (some "bullets") st.activeBullets st with ⟨keptB, stA⟩
  rw [hA] at H1
  obtain ⟨hkB, hAb, hAe, hAp, hAf, hAea, hAsc, hcA, hothA, hregA, hmonoA, hmemA⟩ := H1
  dsimp only at hkB hAb hAe hAp hAf hAea hAsc hcA hothA hregA hmonoA hmemA
  have hmP : ∀ e ∈ stA.activePowerUps, e.hasMesh = false → e.inScene = false := by
    rw [hAp]
    intro e he
    exact hmeshless e (by
      unfold Engine.allActive
      simp [he])
  have hcA3 : Engine.poolsClean ({ stA with activeBullets := keptB } : Engine.EngineS) := hcA
  have hmP3 : ∀ e ∈ ({ stA with activeBullets := keptB } : Engine.EngineS).activePowerUps,
      e.hasMesh = false → e.inScene = false := hmP
  have H2 := Engine.cleanupList_spec "powerUps"
    ({ stA with activeBullets := keptB } : Engine.EngineS).activePowerUps
    ({ stA with activeBullets := keptB } : Engine.EngineS) hcA3 hmP3
  rcases hB : Engine.cleanupList (some "powerUps") stA.activePowerUps
      ({ stA with activeBullets := keptB } : Engine.EngineS) with ⟨keptP, stB⟩
  rw [show Engine.cleanupList (some "powerUps")
      ({ stA with activeBullets := keptB } : Engine.EngineS).activePowerUps
      ({ stA with activeBullets := keptB } : Engine.EngineS) = (keptP, stB) from hB] at H2
  obtain ⟨hkP, hBb, hBe, hBp, hBf, hBea, hBsc, hcB, hothB, hregB2, hmonoB, hmemB⟩ := H2
  dsimp only at hkP hBb hBe hBp hBf hBea hBsc hcB hothB hregB2 hmonoB hmemB
  have hBe2 : stB.activeEnemies = st.activeEnemies := hBe.trans hAe
  have hBf2 : stB.activeEffects = st.activeEffects := hBf.trans hAf
  obtain ⟨plA, hplA⟩ := hregA "powerUps" pl hregP
  obtain ⟨plB, hplB⟩ := hregB2 "powerUps" plA hplA
  obtain ⟨elA, helA⟩ := hregA "enemies" el hregE
  obtain ⟨elB, helB⟩ := hregB2 "enemies" elA helA
  have hc7 : Engine.poolsClean ({ stB with
      activePowerUps := keptP,
      activeEffects := List.filter (fun e => !e.destroyed) stB.activeEffects }
      : Engine.EngineS) := hcB
  have hreg7 : Engine.plookup "powerUps" ({ stB with
      activePowerUps := keptP,
      activeEffects := List.filter (fun e => !e.destroyed) stB.activeEffects }
      : Engine.EngineS).pools = some plB := hplB
  have hmesh7 : ∀ e ∈ stB.activeEnemies, e.hasMesh = true := by
    rw [hBe2]
    exact henemymesh
  obtain ⟨keptEn, st8, rng2, hEn, hkEn, hc8, hb8, hf8, he8, hpu8, hoth8,
      hmono8, hmem8⟩ :=
    Engine.cleanupEnemies_spec stB.activeEnemies
      ({ stB with
        activePowerUps := keptP,
        activeEffects := List.filter (fun e => !e.destroyed) stB.activeEffects }
        : Engine.EngineS) rng hc7 plB hreg7 hmesh7
  have hEq : Engine.cleanupEntities rng st
      = Except.ok { st8 with activeEnemies := keptEn } := by
    unfold Engine.cleanupEntities
    rw [hA]
    dsimp only
    rw [hB]
    dsimp only
    rw [Engine.cleanupList_none]
    dsimp only
    rw [hEn]
  refine ⟨{ st8 with activeEnemies := keptEn }, hEq, ?_, hc8, ?_, ?_⟩
  · intro e he
    unfold Engine.allActive at he
    rcases List.mem_append.mp he with h123 | h4
    rotate_left
    · dsimp only at h4
      rw [hf8] at h4
      dsimp only at h4
      have := List.mem_filter.mp h4
      exact Weapon.bool_not_true (by simpa using this.2)
    rcases List.mem_append.mp h123 with h12 | h3
    rotate_left
    · dsimp only at h3
      rcases hpu8 e h3 with h5 | h5
      · dsimp only at h5
        rw [hkP] at h5
        have := List.mem_filter.mp h5
        exact Weapon.bool_not_true (by simpa using this.2)
      · exact h5
    rcases List.mem_append.mp h12 with h1 | h2
    · have hlists : ({ st8 with activeEnemies := keptEn } : Engine.EngineS).activeBullets
          = keptB := by
        dsimp only
        rw [hb8]
        exact hBb
      rw [hlists, hkB] at h1
      have := List.mem_filter.mp h1
      exact Weapon.bool_not_true (by simpa using this.2)
    · have hlists : ({ st8 with activeEnemies := keptEn } : Engine.EngineS).activeEnemies
          = keptEn := rfl
      rw [hlists, hkEn] at h2
      have := List.mem_filter.mp h2
      exact Weapon.bool_not_true (by simpa using this.2)
  · intro e he hd
    have hmem1 : e.eid ∈ Engine.poolIds "bullets" stA := hmemA bl hregB e he hd
    have heq1 : Engine.plookup "bullets" stB.pools = Engine.plookup "bullets" stA.pools :=
      hothB "bullets" (by decide)
    have heq2 : Engine.plookup "bullets" st8.pools = Engine.plookup "bullets" stB.pools :=
      hoth8 "bullets" (by decide) (by decide)
    have hfinal : Engine.poolIds "bullets" ({ st8 with activeEnemies := keptEn }
        : Engine.EngineS) = Engine.poolIds "bullets" stA := by
      unfold Engine.poolIds
      dsimp only
      rw [heq2, heq1]
    rw [hfinal]
    exact hmem1
  · intro e he hd
    have he2 : e ∈ stB.activeEnemies := by
      rw [hBe2]
      exact he
    have hmemEn := hmem8 elB helB e he2 hd
    have hfinal : Engine.poolIds "enemies" ({ st8 with activeEnemies := keptEn }
        : Engine.EngineS) = Engine.poolIds "enemies" st8 := rfl
    rw [hfinal]
    exact hmemEn

/-- Concrete run of the cleanup invariant: on the sample mid-game engine
state (one live and one destroyed bullet, one destroyed enemy, a pooled
power-up), a cleanup pass with rolls [0, 0] leaves only live entities
active, keeps the pools clean, and returns the destroyed bullet and the
destroyed enemy to their pools. -/
theorem c7_witness :
    ∃ st2, Engine.cleanupEntities [0, 0] Engine.sampleCleanupEngine = Except.ok st2
      ∧ (∀ e ∈ Engine.allActive st2, e.destroyed = false)
      ∧ Engine.poolsClean st2
      ∧ (∀ e ∈ Engine.sampleCleanupEngine.activeBullets, e.destroyed = true →
          e.eid ∈ Engine.poolIds "bullets" st2)
      ∧ (∀ e ∈ Engine.sampleCleanupEngine.activeEnemies, e.destroyed = true →
          e.eid ∈ Engine.poolIds "enemies" st2) := by
  refine c7_cleanup_invariant [0, 0] Engine.sampleCleanupEngine ?_ ?_ ?_
    [] (by decide) [Engine.samplePooledPowerUp] (by decide) [] (by decide)
  · intro pn l hpl e he
    simp only [Engine.sampleCleanupEngine, Engine.plookup] at hpl
    have h : l = [] ∨ l = [Engine.samplePooledPowerUp] := by
      split at hpl
      · exact Or.inl (Option.some_inj.mp hpl).symm
      split at hpl
      · exact Or.inl (Option.some_inj.mp hpl).symm
      split at hpl
      · exact Or.inr (Option.some_inj.mp hpl).symm
      · exact absurd hpl (by simp)
    rcases h with rfl | rfl
    · cases he
    · rcases List.mem_singleton.mp he with rfl
      exact ⟨rfl, rfl⟩
  · decide
  · decide
